import Mathlib

/-
Verification of the Flyte real-time message-routing and channel-membership
subsystem (the Socket.IO server in `server/index.ts`).

The server keeps three pieces of in-memory state:
  * `activeUsers`  : Map<socketId, {socketId, userId, userName, enterpriseId, channels : Set<string>}>
  * `typingUsers`  : Map<channelId, Set<userId>>
  * socket.io room membership (rooms named `channel:<id>` and `enterprise:<id>`)

Each socket event handler is embedded as a pure function from the server
state (plus the responses of the external collaborators: the identity
verifier `supabase.auth.getUser` and the membership store queries) to a new
state, a list of emissions, and a list of attempted database writes.
JS `Map`s are modelled as association lists with insertion-order-preserving
`mset`; JS `Set`s as `Finset`.
-/

namespace Flyte

abbrev SocketId := String
abbrev UserId := String
abbrev ChannelId := String
abbrev EnterpriseId := String

/-- A socket.io room: the server only ever uses rooms named
`channel:<channelId>` and `enterprise:<enterpriseId>`. -/
inductive Room
  | channel (c : ChannelId)
  | enterprise (e : EnterpriseId)
deriving DecidableEq

/-- The `user_profiles` row joined into a saved message. -/
structure Profile where
  id : String
  full_name : String
  email : String
deriving DecidableEq

/-- JSON-ish values appearing in emitted payloads. -/
inductive Val
  | str (s : String)
  | boolv (b : Bool)
  | strList (xs : List String)
  | nullv
  | prof (p : Profile)
deriving DecidableEq

/-- An emitted socket event: its name and its payload object, as a
field-name/value association list (mirroring the JS object literal). -/
structure Event where
  name : String
  payload : List (String × Val)
deriving DecidableEq

/-- Where an emission is directed: `socket.emit` (to one socket),
`io.to(room).emit` (to every socket in the room), or `socket.to(room).emit`
(to every socket in the room except the sender). -/
inductive Target
  | toSocket (s : SocketId)
  | toRoom (r : Room)
  | toRoomExcept (r : Room) (s : SocketId)
deriving DecidableEq

/-- The per-connection record stored in `activeUsers`. -/
structure UserRec where
  socketId : SocketId
  userId : UserId
  userName : String
  enterpriseId : EnterpriseId
  channels : Finset ChannelId
deriving DecidableEq

/-- Association-list map lookup (first matching key, like JS `Map.get`). -/
def mget {α β : Type} [DecidableEq α] : List (α × β) → α → Option β
  | [], _ => none
  | (k, v) :: rest, key => if k = key then some v else mget rest key

/-- Association-list map update: replaces the value in place if the key is
present (keeping its position, like JS `Map.set` on an existing key),
otherwise appends at the end (JS `Map.set` insertion order). -/
def mset {α β : Type} [DecidableEq α] : List (α × β) → α → β → List (α × β)
  | [], key, val => [(key, val)]
  | (k, v) :: rest, key, val =>
      if k = key then (key, val) :: rest else (k, v) :: mset rest key val

/-- Association-list map deletion (JS `Map.delete`). -/
def mdel {α β : Type} [DecidableEq α] : List (α × β) → α → List (α × β)
  | [], _ => []
  | (k, v) :: rest, key =>
      if k = key then rest else (k, v) :: mdel rest key

/-- The whole in-memory server state. -/
structure ServerState where
  activeUsers : List (SocketId × UserRec)
  rooms : Finset (Room × SocketId)
  typingUsers : List (ChannelId × Finset UserId)
deriving DecidableEq

/-- The sockets currently in a room. -/
def roomMembers (st : ServerState) (r : Room) : Finset SocketId :=
  (st.rooms.filter (fun p => p.1 = r)).image (fun p => p.2)

/-- The set of sockets an emission with the given target is delivered to,
resolved against a server state. -/
def recips (st : ServerState) : Target → Finset SocketId
  | .toSocket s => {s}
  | .toRoom r => roomMembers st r
  | .toRoomExcept r s => (roomMembers st r).erase s

/-- Field lookup in an emitted payload. -/
def lookupField : List (String × Val) → String → Option Val
  | [], _ => none
  | (k, v) :: rest, key => if k = key then some v else lookupField rest key

/-- A record of an attempted `messages` insert sent to the store. -/
structure WriteAttempt where
  channel_id : ChannelId
  user_id : UserId
  content : String
  kind : String
  file_url : Option String
deriving DecidableEq

/-- Result of running one event handler: the new state, the emissions in
program order, and the attempted database writes. -/
structure Output where
  state : ServerState
  emits : List (Target × Event)
  writes : List WriteAttempt
deriving DecidableEq

/-- Payload of the client `authenticate` event. -/
structure AuthData where
  userId : UserId
  userName : String
  enterpriseId : EnterpriseId
  accessToken : String
deriving DecidableEq

/-- A row returned by the channels/membership query during authentication
(`select id, name, type ... inner join channel_members`). -/
structure ChannelRow where
  id : ChannelId
  chanName : String
  chanType : String
deriving DecidableEq

/-- Payload of the client `send_message` event. -/
structure SendData where
  channelId : ChannelId
  content : String
  kind : Option String
  fileUrl : Option String
deriving DecidableEq

/-- The saved message row returned by the store on a successful insert
(`insert ... select *, user_profiles(...) single`): the generated id, the
store-side creation timestamp, and the joined sender profile. -/
structure MsgRow where
  id : String
  created_at : String
  user_profiles : Profile
deriving DecidableEq

/-- Payload of the client `add_reaction` event. -/
structure ReactionData where
  messageId : String
  emoji : String
  channelId : ChannelId
deriving DecidableEq

/-- The generic `error` event: `socket.emit('error', { message })`. -/
def errEvt (msg : String) : Event :=
  ⟨"error", [("message", Val.str msg)]⟩

/-- The `auth_error` event. -/
def authErrEvt (msg : String) : Event :=
  ⟨"auth_error", [("message", Val.str msg)]⟩

/-- The `user_stopped_typing` event as the server actually emits it:
`{ userId, channelId }`. -/
def stopTypingEvt (uid : UserId) (c : ChannelId) : Event :=
  ⟨"user_stopped_typing", [("userId", Val.str uid), ("channelId", Val.str c)]⟩

/-- `activeUsers.get(socket.id)?.channels.add(channelId)` — add a channel to
the stored record's channel set, a no-op when the socket is unknown. -/
def addChannelToUser (m : List (SocketId × UserRec)) (s : SocketId) (c : ChannelId) :
    List (SocketId × UserRec) :=
  match mget m s with
  | none => m
  | some u => mset m s { u with channels := insert c u.channels }

/-- The authentication loop `for (const channel of channels) { socket.join(...);
activeUsers.get(socket.id)?.channels.add(channel.id) }`. -/
def joinAll (st : ServerState) (s : SocketId) : List ChannelRow → ServerState
  | [] => st
  | r :: rest =>
      joinAll
        { st with
          rooms := insert (Room.channel r.id, s) st.rooms,
          activeUsers := addChannelToUser st.activeUsers s r.id }
        s rest

/-- The `authenticate` handler. `authRes` is the identity verifier's answer
(`some uid` when `supabase.auth.getUser` returns a user, `none` on error);
`channelsRes` is the membership query's answer (`none` when `channelsError`
is set or `channels` is null). -/
def authenticate (st : ServerState) (s : SocketId) (d : AuthData)
    (authRes : Option UserId) (channelsRes : Option (List ChannelRow)) : Output :=
  match authRes with
  | none => ⟨st, [(Target.toSocket s, authErrEvt "Invalid authentication")], []⟩
  | some uid =>
      if uid = d.userId then
        let st1 : ServerState :=
          { st with activeUsers := mset st.activeUsers s ⟨s, d.userId, d.userName, d.enterpriseId, ∅⟩ }
        match channelsRes with
        | none => ⟨st1, [], []⟩
        | some rows =>
            let st2 := joinAll st1 s rows
            let st3 : ServerState :=
              { st2 with rooms := insert (Room.enterprise d.enterpriseId, s) st2.rooms }
            ⟨st3,
             [(Target.toSocket s,
                ⟨"authenticated",
                 [("success", Val.boolv true),
                  ("channels", Val.strList (rows.map ChannelRow.id))]⟩),
              (Target.toRoomExcept (Room.enterprise d.enterpriseId) s,
                ⟨"user_online",
                 [("userId", Val.str d.userId), ("userName", Val.str d.userName)]⟩)],
             []⟩
      else ⟨st, [(Target.toSocket s, authErrEvt "Invalid authentication")], []⟩

/-- The `join_channel` handler. `memberOk` is whether the membership query
returned a row (`.single()` succeeded). -/
def joinChannel (st : ServerState) (s : SocketId) (c : ChannelId) (memberOk : Bool) : Output :=
  match mget st.activeUsers s with
  | none => ⟨st, [(Target.toSocket s, errEvt "Not authenticated")], []⟩
  | some u =>
      if memberOk then
        ⟨{ st with
            rooms := insert (Room.channel c, s) st.rooms,
            activeUsers := mset st.activeUsers s { u with channels := insert c u.channels } },
         [(Target.toSocket s, ⟨"joined_channel", [("channelId", Val.str c)]⟩),
          (Target.toRoomExcept (Room.channel c) s,
            ⟨"user_joined_channel",
             [("userId", Val.str u.userId), ("userName", Val.str u.userName),
              ("channelId", Val.str c)]⟩)],
         []⟩
      else ⟨st, [(Target.toSocket s, errEvt "Access denied to channel")], []⟩

/-- The `send_message` handler. `insertRes` is the store's answer to the
message insert (`none` on database error); `now` is the value of
`new Date().toISOString()` at broadcast time. -/
def sendMessage (st : ServerState) (s : SocketId) (d : SendData)
    (insertRes : Option MsgRow) (now : String) : Output :=
  match mget st.activeUsers s with
  | none => ⟨st, [(Target.toSocket s, errEvt "Not authenticated")], []⟩
  | some u =>
      if d.channelId ∈ u.channels then
        let w : WriteAttempt := ⟨d.channelId, u.userId, d.content, d.kind.getD "text", d.fileUrl⟩
        match insertRes with
        | none => ⟨st, [(Target.toSocket s, errEvt "Failed to save message")], [w]⟩
        | some msg =>
            let msgEvt : Event :=
              ⟨"new_message",
               [("id", Val.str msg.id),
                ("channelId", Val.str d.channelId),
                ("userId", Val.str u.userId),
                ("userName", Val.str u.userName),
                ("content", Val.str d.content),
                ("type", Val.str (d.kind.getD "text")),
                ("fileUrl", match d.fileUrl with | some f => Val.str f | none => Val.nullv),
                ("timestamp", Val.str now),
                ("user_profiles", Val.prof msg.user_profiles)]⟩
            let base := [(Target.toRoom (Room.channel d.channelId), msgEvt)]
            match mget st.typingUsers d.channelId with
            | some ts =>
                if u.userId ∈ ts then
                  ⟨{ st with typingUsers := mset st.typingUsers d.channelId (ts.erase u.userId) },
                   base ++ [(Target.toRoomExcept (Room.channel d.channelId) s,
                             stopTypingEvt u.userId d.channelId)],
                   [w]⟩
                else ⟨st, base, [w]⟩
            | none => ⟨st, base, [w]⟩
      else ⟨st, [(Target.toSocket s, errEvt "Not a member of this channel")], []⟩

/-- The `typing_start` handler. -/
def typingStart (st : ServerState) (s : SocketId) (c : ChannelId) : Output :=
  match mget st.activeUsers s with
  | none => ⟨st, [], []⟩
  | some u =>
      if c ∈ u.channels then
        let ts := (mget st.typingUsers c).getD ∅
        ⟨{ st with typingUsers := mset st.typingUsers c (insert u.userId ts) },
         [(Target.toRoomExcept (Room.channel c) s,
           ⟨"user_typing",
            [("userId", Val.str u.userId), ("userName", Val.str u.userName),
             ("channelId", Val.str c)]⟩)],
         []⟩
      else ⟨st, [], []⟩

/-- The `typing_stop` handler. -/
def typingStop (st : ServerState) (s : SocketId) (c : ChannelId) : Output :=
  match mget st.activeUsers s with
  | none => ⟨st, [], []⟩
  | some u =>
      if c ∈ u.channels then
        match mget st.typingUsers c with
        | some ts =>
            if u.userId ∈ ts then
              ⟨{ st with typingUsers := mset st.typingUsers c (ts.erase u.userId) },
               [(Target.toRoomExcept (Room.channel c) s, stopTypingEvt u.userId c)],
               []⟩
            else ⟨st, [], []⟩
        | none => ⟨st, [], []⟩
      else ⟨st, [], []⟩

/-- The `add_reaction` handler (broadcast only, no persistence). -/
def addReaction (st : ServerState) (s : SocketId) (d : ReactionData) : Output :=
  match mget st.activeUsers s with
  | none => ⟨st, [], []⟩
  | some u =>
      if d.channelId ∈ u.channels then
        ⟨st,
         [(Target.toRoomExcept (Room.channel d.channelId) s,
           ⟨"message_reaction",
            [("messageId", Val.str d.messageId), ("emoji", Val.str d.emoji),
             ("userId", Val.str u.userId), ("userName", Val.str u.userName),
             ("action", Val.str "add")]⟩)],
         []⟩
      else ⟨st, [], []⟩

/-- The `update_presence` handler. -/
def updatePresence (st : ServerState) (s : SocketId) (status : String) : Output :=
  match mget st.activeUsers s with
  | none => ⟨st, [], []⟩
  | some u =>
      ⟨st,
       [(Target.toRoomExcept (Room.enterprise u.enterpriseId) s,
         ⟨"user_presence_update",
          [("userId", Val.str u.userId), ("status", Val.str status)]⟩)],
       []⟩

/-- The disconnect handler's loop over `typingUsers.entries()`: deletes the
user from every typing set containing it and emits `user_stopped_typing`
per affected channel, preserving map iteration order. -/
def disconnectTyping (entries : List (ChannelId × Finset UserId)) (uid : UserId) (s : SocketId) :
    List (ChannelId × Finset UserId) × List (Target × Event) :=
  match entries with
  | [] => ([], [])
  | (c, ts) :: rest =>
      let r := disconnectTyping rest uid s
      if uid ∈ ts then
        ((c, ts.erase uid) :: r.1,
         (Target.toRoomExcept (Room.channel c) s, stopTypingEvt uid c) :: r.2)
      else ((c, ts) :: r.1, r.2)

/-- The `disconnect` handler. Socket.io removes the socket from every room
on disconnect; for an authenticated socket the handler additionally clears
its typing entries, notifies the enterprise, and drops the registry row. -/
def disconnect (st : ServerState) (s : SocketId) : Output :=
  match mget st.activeUsers s with
  | none => ⟨{ st with rooms := st.rooms.filter (fun p => p.2 ≠ s) }, [], []⟩
  | some u =>
      let r := disconnectTyping st.typingUsers u.userId s
      ⟨{ activeUsers := mdel st.activeUsers s,
         rooms := st.rooms.filter (fun p => p.2 ≠ s),
         typingUsers := r.1 },
       r.2 ++ [(Target.toRoomExcept (Room.enterprise u.enterpriseId) s,
                ⟨"user_offline", [("userId", Val.str u.userId)]⟩)],
       []⟩

/-- One inbound event together with the external collaborators' responses. -/
inductive Action
  | auth (s : SocketId) (d : AuthData) (authRes : Option UserId)
      (channelsRes : Option (List ChannelRow))
  | join (s : SocketId) (c : ChannelId) (memberOk : Bool)
  | send (s : SocketId) (d : SendData) (insertRes : Option MsgRow) (now : String)
  | tStart (s : SocketId) (c : ChannelId)
  | tStop (s : SocketId) (c : ChannelId)
  | react (s : SocketId) (d : ReactionData)
  | pres (s : SocketId) (status : String)
  | disc (s : SocketId)

/-- Dispatch one action to its handler. -/
def step (st : ServerState) : Action → Output
  | .auth s d a c => authenticate st s d a c
  | .join s c m => joinChannel st s c m
  | .send s d i n => sendMessage st s d i n
  | .tStart s c => typingStart st s c
  | .tStop s c => typingStop st s c
  | .react s d => addReaction st s d
  | .pres s status => updatePresence st s status
  | .disc s => disconnect st s

/-- Run a sequence of actions from a state. -/
def run (st : ServerState) : List Action → ServerState
  | [] => st
  | a :: rest => run (step st a).state rest

/-- The server's startup state: empty registry, no rooms, no typing state. -/
def initState : ServerState := ⟨[], ∅, []⟩

section MapLemmas

variable {α β : Type} [DecidableEq α]

theorem mget_mset_self (m : List (α × β)) (k : α) (v : β) :
    mget (mset m k v) k = some v := by
  induction m with
  | nil => simp [mset, mget]
  | cons p rest ih =>
      obtain ⟨k', v'⟩ := p
      by_cases h : k' = k
      · subst h; simp [mset, mget]
      · simp [mset, mget, h, ih]

theorem mget_mset_ne (m : List (α × β)) (k x : α) (v : β) (h : x ≠ k) :
    mget (mset m k v) x = mget m x := by
  have hkx : ¬ k = x := fun hh => h hh.symm
  induction m with
  | nil => simp [mset, mget, hkx]
  | cons p rest ih =>
      obtain ⟨k', v'⟩ := p
      by_cases hk : k' = k
      · subst hk; simp [mset, mget, hkx]
      · by_cases hx : k' = x
        · subst hx; simp [mset, mget, hk]
        · simp [mset, mget, hk, hx, ih]

theorem mget_mdel_ne (m : List (α × β)) (k x : α) (h : x ≠ k) :
    mget (mdel m k) x = mget m x := by
  have hkx : ¬ k = x := fun hh => h hh.symm
  induction m with
  | nil => simp [mdel]
  | cons p rest ih =>
      obtain ⟨k', v'⟩ := p
      by_cases hk : k' = k
      · subst hk; simp [mdel, mget, hkx]
      · by_cases hx : k' = x
        · subst hx; simp [mdel, mget, hk]
        · simp [mdel, mget, hk, hx, ih]

theorem mget_eq_none_of_not_mem_keys (m : List (α × β)) (k : α)
    (h : k ∉ m.map Prod.fst) : mget m k = none := by
  induction m with
  | nil => simp [mget]
  | cons p rest ih =>
      obtain ⟨k', v'⟩ := p
      simp only [List.map_cons, List.mem_cons] at h
      push_neg at h
      simp only [mget]
      rw [if_neg (fun hh => h.1 hh.symm)]
      exact ih h.2

theorem mem_keys_mset (m : List (α × β)) (k : α) (v : β) (x : α) :
    x ∈ (mset m k v).map Prod.fst ↔ x ∈ m.map Prod.fst ∨ x = k := by
  induction m with
  | nil => simp [mset]
  | cons p rest ih =>
      obtain ⟨k', v'⟩ := p
      by_cases hk : k' = k
      · subst hk; simp [mset]; tauto
      · simp [mset, hk, ih]; tauto

theorem nodup_keys_mset (m : List (α × β)) (k : α) (v : β)
    (h : (m.map Prod.fst).Nodup) : ((mset m k v).map Prod.fst).Nodup := by
  induction m with
  | nil => simp [mset]
  | cons p rest ih =>
      obtain ⟨k', v'⟩ := p
      simp only [List.map_cons, List.nodup_cons] at h
      by_cases hk : k' = k
      · subst hk; simpa [mset] using h
      · simp only [mset, if_neg hk, List.map_cons, List.nodup_cons]
        refine ⟨fun hmem => ?_, ih h.2⟩
        rcases (mem_keys_mset rest k v k').mp hmem with hin | heq
        · exact h.1 hin
        · exact hk heq

theorem mem_keys_mdel (m : List (α × β)) (k : α) (x : α)
    (h : x ∈ (mdel m k).map Prod.fst) : x ∈ m.map Prod.fst := by
  induction m with
  | nil => simpa [mdel] using h
  | cons p rest ih =>
      obtain ⟨k', v'⟩ := p
      by_cases hk : k' = k
      · subst hk
        have hred : mdel ((k', v') :: rest) k' = rest := by simp [mdel]
        rw [hred] at h
        simp only [List.map_cons, List.mem_cons]
        exact Or.inr h
      · simp only [mdel, if_neg hk, List.map_cons, List.mem_cons] at h ⊢
        tauto

theorem nodup_keys_mdel (m : List (α × β)) (k : α)
    (h : (m.map Prod.fst).Nodup) : ((mdel m k).map Prod.fst).Nodup := by
  induction m with
  | nil => simp [mdel]
  | cons p rest ih =>
      obtain ⟨k', v'⟩ := p
      simp only [List.map_cons, List.nodup_cons] at h
      by_cases hk : k' = k
      · subst hk; simpa [mdel] using h.2
      · simp only [mdel, if_neg hk, List.map_cons, List.nodup_cons]
        exact ⟨fun hmem => h.1 (mem_keys_mdel rest k k' hmem), ih h.2⟩

theorem mget_mdel_self (m : List (α × β)) (k : α)
    (h : (m.map Prod.fst).Nodup) : mget (mdel m k) k = none := by
  induction m with
  | nil => simp [mdel, mget]
  | cons p rest ih =>
      obtain ⟨k', v'⟩ := p
      simp only [List.map_cons, List.nodup_cons] at h
      by_cases hk : k' = k
      · subst hk
        have hred : mdel ((k', v') :: rest) k' = rest := by simp [mdel]
        rw [hred]
        exact mget_eq_none_of_not_mem_keys rest k' h.1
      · simp only [mdel, if_neg hk, mget]
        exact ih h.2

end MapLemmas

theorem mget_addChannelToUser_self (m : List (SocketId × UserRec)) (s : SocketId)
    (c : ChannelId) :
    mget (addChannelToUser m s c) s =
      (mget m s).map (fun u => { u with channels := insert c u.channels }) := by
  unfold addChannelToUser
  cases h : mget m s with
  | none => simp [h]
  | some u => simp [mget_mset_self]

theorem mget_addChannelToUser_ne (m : List (SocketId × UserRec)) (s : SocketId)
    (c : ChannelId) (x : SocketId) (h : x ≠ s) :
    mget (addChannelToUser m s c) x = mget m x := by
  unfold addChannelToUser
  cases hm : mget m s with
  | none => rfl
  | some u => exact mget_mset_ne m s x _ h

theorem nodup_keys_addChannelToUser (m : List (SocketId × UserRec)) (s : SocketId)
    (c : ChannelId) (h : (m.map Prod.fst).Nodup) :
    ((addChannelToUser m s c).map Prod.fst).Nodup := by
  unfold addChannelToUser
  cases hm : mget m s with
  | none => exact h
  | some u => exact nodup_keys_mset m s _ h

/-- Room membership, unfolded. -/
theorem mem_roomMembers (st : ServerState) (r : Room) (x : SocketId) :
    x ∈ roomMembers st r ↔ (r, x) ∈ st.rooms := by
  unfold roomMembers
  simp only [Finset.mem_image, Finset.mem_filter]
  constructor
  · rintro ⟨⟨r', x'⟩, ⟨hmem, hr⟩, hx⟩
    simp only at hr hx
    subst hr; subst hx; exact hmem
  · intro h
    exact ⟨(r, x), ⟨h, rfl⟩, rfl⟩

/-- Connection-Registry soundness of the fan-out groups: every socket in a
channel room is registered with that channel in its subscribed-channel set. -/
def roomsBound (st : ServerState) : Prop :=
  ∀ c x, (Room.channel c, x) ∈ st.rooms →
    ∃ u, mget st.activeUsers x = some u ∧ c ∈ u.channels

/-- Completeness of the fan-out groups: every channel in a registered
connection's subscribed-channel set has the socket in that channel's room. -/
def channelsBound (st : ServerState) : Prop :=
  ∀ x u c, mget st.activeUsers x = some u → c ∈ u.channels →
    (Room.channel c, x) ∈ st.rooms

/-- The registry association list has no duplicate socket keys. -/
def keysNodup (st : ServerState) : Prop := (st.activeUsers.map Prod.fst).Nodup

theorem joinAll_activeUsers_ne (rows : List ChannelRow) :
    ∀ (st : ServerState) (s x : SocketId), x ≠ s →
      mget (joinAll st s rows).activeUsers x = mget st.activeUsers x := by
  induction rows with
  | nil => intros; rfl
  | cons r rest ih =>
      intro st s x h
      simp only [joinAll]
      rw [ih _ s x h]
      exact mget_addChannelToUser_ne _ _ _ _ h

theorem joinAll_rooms_mono (rows : List ChannelRow) :
    ∀ (st : ServerState) (s : SocketId) (p : Room × SocketId),
      p ∈ st.rooms → p ∈ (joinAll st s rows).rooms := by
  induction rows with
  | nil => intro st s p h; exact h
  | cons r rest ih =>
      intro st s p h
      simp only [joinAll]
      exact ih _ s p (Finset.mem_insert_of_mem h)

theorem roomsBound_joinAll (rows : List ChannelRow) :
    ∀ (st : ServerState) (s : SocketId), roomsBound st →
      (mget st.activeUsers s).isSome → roomsBound (joinAll st s rows) := by
  induction rows with
  | nil => intro st s h _; exact h
  | cons r rest ih =>
      intro st s h hsome
      obtain ⟨u, hu⟩ := Option.isSome_iff_exists.mp hsome
      simp only [joinAll]
      apply ih
      · intro c2 x2 hmem
        rcases Finset.mem_insert.mp hmem with heq | hold
        · injection heq with h1 h2
          injection h1 with hc2
          subst hc2; subst h2
          refine ⟨{ u with channels := insert r.id u.channels }, ?_,
            Finset.mem_insert_self _ _⟩
          rw [mget_addChannelToUser_self, hu]
          rfl
        · obtain ⟨w, hw, hcw⟩ := h c2 x2 hold
          by_cases hx : x2 = s
          · subst hx
            rw [hu] at hw
            injection hw with hval
            subst hval
            refine ⟨{ u with channels := insert r.id u.channels }, ?_,
              Finset.mem_insert_of_mem hcw⟩
            rw [mget_addChannelToUser_self, hu]
            rfl
          · refine ⟨w, ?_, hcw⟩
            rw [mget_addChannelToUser_ne _ _ _ _ hx]
            exact hw
      · rw [mget_addChannelToUser_self, hu]
        rfl

theorem channelsBound_joinAll (rows : List ChannelRow) :
    ∀ (st : ServerState) (s : SocketId), channelsBound st →
      channelsBound (joinAll st s rows) := by
  induction rows with
  | nil => intro st s h; exact h
  | cons r rest ih =>
      intro st s h
      simp only [joinAll]
      apply ih
      intro x2 u2 c2 hx hc
      show (Room.channel c2, x2) ∈ insert (Room.channel r.id, s) st.rooms
      by_cases hxs : x2 = s
      · subst hxs
        rw [mget_addChannelToUser_self] at hx
        cases hm : mget st.activeUsers x2 with
        | none => rw [hm] at hx; exact absurd hx (by simp)
        | some u0 =>
            rw [hm] at hx
            injection hx with hval
            rw [← hval] at hc
            rcases Finset.mem_insert.mp hc with hceq | hcin
            · subst hceq; exact Finset.mem_insert_self _ _
            · exact Finset.mem_insert_of_mem (h x2 u0 c2 hm hcin)
      · rw [mget_addChannelToUser_ne _ _ _ _ hxs] at hx
        exact Finset.mem_insert_of_mem (h x2 u2 c2 hx hc)

theorem keysNodup_joinAll (rows : List ChannelRow) :
    ∀ (st : ServerState) (s : SocketId),
      (st.activeUsers.map Prod.fst).Nodup →
      ((joinAll st s rows).activeUsers.map Prod.fst).Nodup := by
  induction rows with
  | nil => intro st s h; exact h
  | cons r rest ih =>
      intro st s h
      simp only [joinAll]
      exact ih _ s (nodup_keys_addChannelToUser _ _ _ h)

/-- The state after the registration step of `authenticate`
(`activeUsers.set(socket.id, {..., channels: new Set()})`). -/
def regState (st : ServerState) (s : SocketId) (d : AuthData) : ServerState :=
  { st with activeUsers := mset st.activeUsers s ⟨s, d.userId, d.userName, d.enterpriseId, ∅⟩ }

/-- The state after a fully successful `authenticate`. -/
def authOkState (st : ServerState) (s : SocketId) (d : AuthData)
    (rows : List ChannelRow) : ServerState :=
  { joinAll (regState st s d) s rows with
    rooms := insert (Room.enterprise d.enterpriseId, s) (joinAll (regState st s d) s rows).rooms }

/-- The `authenticated` ack event. -/
def authedEvt (rows : List ChannelRow) : Event :=
  ⟨"authenticated",
   [("success", Val.boolv true), ("channels", Val.strList (rows.map ChannelRow.id))]⟩

/-- The `user_online` notification. -/
def userOnlineEvt (d : AuthData) : Event :=
  ⟨"user_online", [("userId", Val.str d.userId), ("userName", Val.str d.userName)]⟩

/-- The `joined_channel` ack event. -/
def joinedChannelEvt (c : ChannelId) : Event :=
  ⟨"joined_channel", [("channelId", Val.str c)]⟩

/-- The `user_joined_channel` notification. -/
def userJoinedEvt (u : UserRec) (c : ChannelId) : Event :=
  ⟨"user_joined_channel",
   [("userId", Val.str u.userId), ("userName", Val.str u.userName),
    ("channelId", Val.str c)]⟩

/-- The `user_typing` notification. -/
def userTypingEvt (u : UserRec) (c : ChannelId) : Event :=
  ⟨"user_typing",
   [("userId", Val.str u.userId), ("userName", Val.str u.userName),
    ("channelId", Val.str c)]⟩

/-- The `user_offline` notification. -/
def userOfflineEvt (u : UserRec) : Event :=
  ⟨"user_offline", [("userId", Val.str u.userId)]⟩

/-- The attempted message insert. -/
def writeOf (u : UserRec) (d : SendData) : WriteAttempt :=
  ⟨d.channelId, u.userId, d.content, d.kind.getD "text", d.fileUrl⟩

/-- The canonical `new_message` broadcast payload. -/
def newMessageEvt (msg : MsgRow) (u : UserRec) (d : SendData) (now : String) : Event :=
  ⟨"new_message",
   [("id", Val.str msg.id),
    ("channelId", Val.str d.channelId),
    ("userId", Val.str u.userId),
    ("userName", Val.str u.userName),
    ("content", Val.str d.content),
    ("type", Val.str (d.kind.getD "text")),
    ("fileUrl", match d.fileUrl with | some f => Val.str f | none => Val.nullv),
    ("timestamp", Val.str now),
    ("user_profiles", Val.prof msg.user_profiles)]⟩

section HandlerEquations

variable (st : ServerState) (s : SocketId) (d : AuthData)

theorem authenticate_eq_badtoken (cr : Option (List ChannelRow)) :
    authenticate st s d none cr =
      ⟨st, [(Target.toSocket s, authErrEvt "Invalid authentication")], []⟩ := rfl

theorem authenticate_eq_mismatch (uid : UserId) (cr : Option (List ChannelRow))
    (h : ¬ uid = d.userId) :
    authenticate st s d (some uid) cr =
      ⟨st, [(Target.toSocket s, authErrEvt "Invalid authentication")], []⟩ := by
  unfold authenticate
  dsimp only
  rw [if_neg h]

theorem authenticate_eq_chanfail :
    authenticate st s d (some d.userId) none = ⟨regState st s d, [], []⟩ := by
  unfold authenticate
  dsimp only
  rw [if_pos rfl]
  rfl

theorem authenticate_eq_ok (rows : List ChannelRow) :
    authenticate st s d (some d.userId) (some rows) =
      ⟨authOkState st s d rows,
       [(Target.toSocket s, authedEvt rows),
        (Target.toRoomExcept (Room.enterprise d.enterpriseId) s, userOnlineEvt d)],
       []⟩ := by
  unfold authenticate
  dsimp only
  rw [if_pos rfl]
  rfl

end HandlerEquations

section HandlerEquations2

variable (st : ServerState) (s : SocketId)

theorem joinChannel_eq_unauth (c : ChannelId) (mo : Bool)
    (hu : mget st.activeUsers s = none) :
    joinChannel st s c mo = ⟨st, [(Target.toSocket s, errEvt "Not authenticated")], []⟩ := by
  unfold joinChannel
  rw [hu]

theorem joinChannel_eq_denied (c : ChannelId) (u : UserRec)
    (hu : mget st.activeUsers s = some u) :
    joinChannel st s c false =
      ⟨st, [(Target.toSocket s, errEvt "Access denied to channel")], []⟩ := by
  unfold joinChannel
  rw [hu]
  rfl

theorem joinChannel_eq_ok (c : ChannelId) (u : UserRec)
    (hu : mget st.activeUsers s = some u) :
    joinChannel st s c true =
      ⟨{ st with
          rooms := insert (Room.channel c, s) st.rooms,
          activeUsers := mset st.activeUsers s { u with channels := insert c u.channels } },
       [(Target.toSocket s, joinedChannelEvt c),
        (Target.toRoomExcept (Room.channel c) s, userJoinedEvt u c)],
       []⟩ := by
  unfold joinChannel
  rw [hu]
  rfl

theorem sendMessage_eq_unauth (d : SendData) (ir : Option MsgRow) (now : String)
    (hu : mget st.activeUsers s = none) :
    sendMessage st s d ir now =
      ⟨st, [(Target.toSocket s, errEvt "Not authenticated")], []⟩ := by
  unfold sendMessage
  rw [hu]

theorem sendMessage_eq_notmember (d : SendData) (ir : Option MsgRow) (now : String)
    (u : UserRec) (hu : mget st.activeUsers s = some u)
    (hc : d.channelId ∉ u.channels) :
    sendMessage st s d ir now =
      ⟨st, [(Target.toSocket s, errEvt "Not a member of this channel")], []⟩ := by
  unfold sendMessage
  rw [hu]
  dsimp only
  rw [if_neg hc]

theorem sendMessage_eq_dbfail (d : SendData) (now : String) (u : UserRec)
    (hu : mget st.activeUsers s = some u) (hc : d.channelId ∈ u.channels) :
    sendMessage st s d none now =
      ⟨st, [(Target.toSocket s, errEvt "Failed to save message")], [writeOf u d]⟩ := by
  unfold sendMessage
  rw [hu]
  dsimp only
  rw [if_pos hc]
  rfl

theorem sendMessage_eq_ok_quiet_none (d : SendData) (msg : MsgRow) (now : String)
    (u : UserRec) (hu : mget st.activeUsers s = some u) (hc : d.channelId ∈ u.channels)
    (hty : mget st.typingUsers d.channelId = none) :
    sendMessage st s d (some msg) now =
      ⟨st, [(Target.toRoom (Room.channel d.channelId), newMessageEvt msg u d now)],
       [writeOf u d]⟩ := by
  unfold sendMessage
  rw [hu]
  dsimp only
  rw [if_pos hc]
  rw [hty]
  rfl

theorem sendMessage_eq_ok_quiet_notin (d : SendData) (msg : MsgRow) (now : String)
    (u : UserRec) (ts : Finset UserId)
    (hu : mget st.activeUsers s = some u) (hc : d.channelId ∈ u.channels)
    (hty : mget st.typingUsers d.channelId = some ts) (hnin : u.userId ∉ ts) :
    sendMessage st s d (some msg) now =
      ⟨st, [(Target.toRoom (Room.channel d.channelId), newMessageEvt msg u d now)],
       [writeOf u d]⟩ := by
  unfold sendMessage
  rw [hu]
  dsimp only
  rw [if_pos hc]
  rw [hty]
  dsimp only
  rw [if_neg hnin]
  rfl

theorem sendMessage_eq_ok_typing (d : SendData) (msg : MsgRow) (now : String)
    (u : UserRec) (ts : Finset UserId)
    (hu : mget st.activeUsers s = some u) (hc : d.channelId ∈ u.channels)
    (hty : mget st.typingUsers d.channelId = some ts) (hin : u.userId ∈ ts) :
    sendMessage st s d (some msg) now =
      ⟨{ st with typingUsers := mset st.typingUsers d.channelId (ts.erase u.userId) },
       [(Target.toRoom (Room.channel d.channelId), newMessageEvt msg u d now),
        (Target.toRoomExcept (Room.channel d.channelId) s, stopTypingEvt u.userId d.channelId)],
       [writeOf u d]⟩ := by
  unfold sendMessage
  rw [hu]
  dsimp only
  rw [if_pos hc]
  rw [hty]
  dsimp only
  rw [if_pos hin]
  rfl

theorem typingStart_eq_unauth (c : ChannelId) (hu : mget st.activeUsers s = none) :
    typingStart st s c = ⟨st, [], []⟩ := by
  unfold typingStart
  rw [hu]

theorem typingStart_eq_notmember (c : ChannelId) (u : UserRec)
    (hu : mget st.activeUsers s = some u) (hc : c ∉ u.channels) :
    typingStart st s c = ⟨st, [], []⟩ := by
  unfold typingStart
  rw [hu]
  dsimp only
  rw [if_neg hc]

theorem typingStart_eq_ok (c : ChannelId) (u : UserRec)
    (hu : mget st.activeUsers s = some u) (hc : c ∈ u.channels) :
    typingStart st s c =
      ⟨{ st with
          typingUsers :=
            mset st.typingUsers c (insert u.userId ((mget st.typingUsers c).getD ∅)) },
       [(Target.toRoomExcept (Room.channel c) s, userTypingEvt u c)],
       []⟩ := by
  unfold typingStart
  rw [hu]
  dsimp only
  rw [if_pos hc]
  rfl

theorem typingStop_eq_unauth (c : ChannelId) (hu : mget st.activeUsers s = none) :
    typingStop st s c = ⟨st, [], []⟩ := by
  unfold typingStop
  rw [hu]

theorem typingStop_eq_notmember (c : ChannelId) (u : UserRec)
    (hu : mget st.activeUsers s = some u) (hc : c ∉ u.channels) :
    typingStop st s c = ⟨st, [], []⟩ := by
  unfold typingStop
  rw [hu]
  dsimp only
  rw [if_neg hc]

theorem typingStop_eq_none (c : ChannelId) (u : UserRec)
    (hu : mget st.activeUsers s = some u) (hc : c ∈ u.channels)
    (hty : mget st.typingUsers c = none) :
    typingStop st s c = ⟨st, [], []⟩ := by
  unfold typingStop
  rw [hu]
  dsimp only
  rw [if_pos hc]
  rw [hty]

theorem typingStop_eq_notin (c : ChannelId) (u : UserRec) (ts : Finset UserId)
    (hu : mget st.activeUsers s = some u) (hc : c ∈ u.channels)
    (hty : mget st.typingUsers c = some ts) (hnin : u.userId ∉ ts) :
    typingStop st s c = ⟨st, [], []⟩ := by
  unfold typingStop
  rw [hu]
  dsimp only
  rw [if_pos hc]
  rw [hty]
  dsimp only
  rw [if_neg hnin]

theorem typingStop_eq_ok (c : ChannelId) (u : UserRec) (ts : Finset UserId)
    (hu : mget st.activeUsers s = some u) (hc : c ∈ u.channels)
    (hty : mget st.typingUsers c = some ts) (hin : u.userId ∈ ts) :
    typingStop st s c =
      ⟨{ st with typingUsers := mset st.typingUsers c (ts.erase u.userId) },
       [(Target.toRoomExcept (Room.channel c) s, stopTypingEvt u.userId c)],
       []⟩ := by
  unfold typingStop
  rw [hu]
  dsimp only
  rw [if_pos hc]
  rw [hty]
  dsimp only
  rw [if_pos hin]

theorem addReaction_eq_unauth (rd : ReactionData) (hu : mget st.activeUsers s = none) :
    addReaction st s rd = ⟨st, [], []⟩ := by
  unfold addReaction
  rw [hu]

theorem addReaction_eq_notmember (rd : ReactionData) (u : UserRec)
    (hu : mget st.activeUsers s = some u) (hc : rd.channelId ∉ u.channels) :
    addReaction st s rd = ⟨st, [], []⟩ := by
  unfold addReaction
  rw [hu]
  dsimp only
  rw [if_neg hc]

theorem addReaction_eq_ok (rd : ReactionData) (u : UserRec)
    (hu : mget st.activeUsers s = some u) (hc : rd.channelId ∈ u.channels) :
    addReaction st s rd =
      ⟨st,
       [(Target.toRoomExcept (Room.channel rd.channelId) s,
         ⟨"message_reaction",
          [("messageId", Val.str rd.messageId), ("emoji", Val.str rd.emoji),
           ("userId", Val.str u.userId), ("userName", Val.str u.userName),
           ("action", Val.str "add")]⟩)],
       []⟩ := by
  unfold addReaction
  rw [hu]
  dsimp only
  rw [if_pos hc]

theorem updatePresence_eq_unauth (status : String) (hu : mget st.activeUsers s = none) :
    updatePresence st s status = ⟨st, [], []⟩ := by
  unfold updatePresence
  rw [hu]

theorem updatePresence_eq_ok (status : String) (u : UserRec)
    (hu : mget st.activeUsers s = some u) :
    updatePresence st s status =
      ⟨st,
       [(Target.toRoomExcept (Room.enterprise u.enterpriseId) s,
         ⟨"user_presence_update",
          [("userId", Val.str u.userId), ("status", Val.str status)]⟩)],
       []⟩ := by
  unfold updatePresence
  rw [hu]

theorem disconnect_eq_unknown (hu : mget st.activeUsers s = none) :
    disconnect st s =
      ⟨{ st with rooms := st.rooms.filter (fun p => p.2 ≠ s) }, [], []⟩ := by
  unfold disconnect
  rw [hu]

theorem disconnect_eq_known (u : UserRec) (hu : mget st.activeUsers s = some u) :
    disconnect st s =
      ⟨⟨mdel st.activeUsers s,
        st.rooms.filter (fun p => p.2 ≠ s),
        (disconnectTyping st.typingUsers u.userId s).1⟩,
       (disconnectTyping st.typingUsers u.userId s).2 ++
         [(Target.toRoomExcept (Room.enterprise u.enterpriseId) s, userOfflineEvt u)],
       []⟩ := by
  unfold disconnect
  rw [hu]
  rfl

end HandlerEquations2

/-- Whether a room is a channel fan-out room. -/
def isChanRoom : Room → Bool
  | .channel _ => true
  | .enterprise _ => false

/-- The side condition under which the fan-out soundness invariant survives
an `authenticate` action: the socket occupies no channel room when the
handler runs. It holds for every first authentication of a connection; a
re-authentication while still bound to channel rooms violates it. -/
def authCondOK (st : ServerState) : Action → Prop
  | .auth s _ _ _ => st.rooms.filter (fun p => p.2 = s ∧ isChanRoom p.1 = true) = ∅
  | _ => True

theorem not_mem_chanRoom_of_authCond {st : ServerState} {s : SocketId} {d : AuthData}
    {ar : Option UserId} {cr : Option (List ChannelRow)}
    (h : authCondOK st (Action.auth s d ar cr)) (c : ChannelId) :
    (Room.channel c, s) ∉ st.rooms := by
  intro hmem
  have h2 : st.rooms.filter (fun p => p.2 = s ∧ isChanRoom p.1 = true) = ∅ := h
  have hf : (Room.channel c, s) ∈
      st.rooms.filter (fun p => p.2 = s ∧ isChanRoom p.1 = true) :=
    Finset.mem_filter.mpr ⟨hmem, rfl, rfl⟩
  rw [h2] at hf
  exact absurd hf (Finset.not_mem_empty _)

theorem roomsBound_regState (st : ServerState) (s : SocketId) (d : AuthData)
    (h : roomsBound st) (hcond : ∀ c, (Room.channel c, s) ∉ st.rooms) :
    roomsBound (regState st s d) := by
  intro c x hmem
  by_cases hx : x = s
  · subst hx; exact absurd hmem (hcond c)
  · obtain ⟨u, hu, hcu⟩ := h c x hmem
    refine ⟨u, ?_, hcu⟩
    show mget (mset st.activeUsers s ⟨s, d.userId, d.userName, d.enterpriseId, ∅⟩) x = some u
    rw [mget_mset_ne _ _ _ _ hx]
    exact hu

theorem roomsBound_step (st : ServerState) (a : Action) (h : roomsBound st)
    (hcond : authCondOK st a) : roomsBound (step st a).state := by
  cases a with
  | auth s d ar cr =>
      show roomsBound (authenticate st s d ar cr).state
      have hcond2 : ∀ c, (Room.channel c, s) ∉ st.rooms :=
        not_mem_chanRoom_of_authCond hcond
      cases ar with
      | none => rw [authenticate_eq_badtoken]; exact h
      | some uid =>
          by_cases huid : uid = d.userId
          · subst huid
            cases cr with
            | none =>
                rw [authenticate_eq_chanfail]
                exact roomsBound_regState st s d h hcond2
            | some rows =>
                rw [authenticate_eq_ok]
                intro c x hmem
                have hmem2 : (Room.channel c, x) ∈
                    insert (Room.enterprise d.enterpriseId, s)
                      (joinAll (regState st s d) s rows).rooms := hmem
                rcases Finset.mem_insert.mp hmem2 with heq | hold
                · exact absurd heq (by simp)
                · have hrb := roomsBound_joinAll rows (regState st s d) s
                    (roomsBound_regState st s d h hcond2)
                    (by
                      show (mget (mset st.activeUsers s
                        ⟨s, d.userId, d.userName, d.enterpriseId, ∅⟩) s).isSome
                      rw [mget_mset_self]; rfl)
                  exact hrb c x hold
          · rw [authenticate_eq_mismatch st s d uid cr huid]; exact h
  | join s c mo =>
      show roomsBound (joinChannel st s c mo).state
      cases hu : mget st.activeUsers s with
      | none => rw [joinChannel_eq_unauth st s c mo hu]; exact h
      | some u =>
          cases mo with
          | false => rw [joinChannel_eq_denied st s c u hu]; exact h
          | true =>
              rw [joinChannel_eq_ok st s c u hu]
              intro c2 x hmem
              have hmem2 : (Room.channel c2, x) ∈
                  insert (Room.channel c, s) st.rooms := hmem
              rcases Finset.mem_insert.mp hmem2 with heq | hold
              · injection heq.symm with h1 h2
                injection h1 with hc2
                subst hc2; subst h2
                exact ⟨{ u with channels := insert c u.channels },
                  mget_mset_self _ _ _, Finset.mem_insert_self _ _⟩
              · obtain ⟨w, hw, hcw⟩ := h c2 x hold
                by_cases hx : x = s
                · subst hx
                  rw [hu] at hw
                  injection hw with hval
                  subst hval
                  exact ⟨{ u with channels := insert c u.channels },
                    mget_mset_self _ _ _, Finset.mem_insert_of_mem hcw⟩
                · exact ⟨w, by
                    show mget (mset st.activeUsers s
                      { u with channels := insert c u.channels }) x = some w
                    rw [mget_mset_ne _ _ _ _ hx]; exact hw, hcw⟩
  | send s d ir now =>
      show roomsBound (sendMessage st s d ir now).state
      unfold sendMessage
      repeat' split
      all_goals exact h
  | tStart s c =>
      show roomsBound (typingStart st s c).state
      unfold typingStart
      repeat' split
      all_goals exact h
  | tStop s c =>
      show roomsBound (typingStop st s c).state
      unfold typingStop
      repeat' split
      all_goals exact h
  | react s rd =>
      show roomsBound (addReaction st s rd).state
      unfold addReaction
      repeat' split
      all_goals exact h
  | pres s status =>
      show roomsBound (updatePresence st s status).state
      unfold updatePresence
      repeat' split
      all_goals exact h
  | disc s =>
      show roomsBound (disconnect st s).state
      cases hu : mget st.activeUsers s with
      | none =>
          rw [disconnect_eq_unknown st s hu]
          intro c x hmem
          obtain ⟨hold, _⟩ := Finset.mem_filter.mp hmem
          exact h c x hold
      | some u =>
          rw [disconnect_eq_known st s u hu]
          intro c x hmem
          obtain ⟨hold, hxs⟩ := Finset.mem_filter.mp hmem
          obtain ⟨w, hw, hcw⟩ := h c x hold
          refine ⟨w, ?_, hcw⟩
          show mget (mdel st.activeUsers s) x = some w
          rw [mget_mdel_ne _ _ _ hxs]
          exact hw

theorem keysNodup_step (st : ServerState) (a : Action) (h : keysNodup st) :
    keysNodup (step st a).state := by
  cases a with
  | auth s d ar cr =>
      show keysNodup (authenticate st s d ar cr).state
      cases ar with
      | none => rw [authenticate_eq_badtoken]; exact h
      | some uid =>
          by_cases huid : uid = d.userId
          · subst huid
            cases cr with
            | none =>
                rw [authenticate_eq_chanfail]
                exact nodup_keys_mset _ _ _ h
            | some rows =>
                rw [authenticate_eq_ok]
                exact keysNodup_joinAll rows (regState st s d) s (nodup_keys_mset _ _ _ h)
          · rw [authenticate_eq_mismatch st s d uid cr huid]; exact h
  | join s c mo =>
      show keysNodup (joinChannel st s c mo).state
      cases hu : mget st.activeUsers s with
      | none => rw [joinChannel_eq_unauth st s c mo hu]; exact h
      | some u =>
          cases mo with
          | false => rw [joinChannel_eq_denied st s c u hu]; exact h
          | true =>
              rw [joinChannel_eq_ok st s c u hu]
              exact nodup_keys_mset _ _ _ h
  | send s d ir now =>
      show keysNodup (sendMessage st s d ir now).state
      unfold sendMessage
      repeat' split
      all_goals exact h
  | tStart s c =>
      show keysNodup (typingStart st s c).state
      unfold typingStart
      repeat' split
      all_goals exact h
  | tStop s c =>
      show keysNodup (typingStop st s c).state
      unfold typingStop
      repeat' split
      all_goals exact h
  | react s rd =>
      show keysNodup (addReaction st s rd).state
      unfold addReaction
      repeat' split
      all_goals exact h
  | pres s status =>
      show keysNodup (updatePresence st s status).state
      unfold updatePresence
      repeat' split
      all_goals exact h
  | disc s =>
      show keysNodup (disconnect st s).state
      cases hu : mget st.activeUsers s with
      | none => rw [disconnect_eq_unknown st s hu]; exact h
      | some u =>
          rw [disconnect_eq_known st s u hu]
          exact nodup_keys_mdel _ _ h

theorem channelsBound_regState (st : ServerState) (s : SocketId) (d : AuthData)
    (h : channelsBound st) : channelsBound (regState st s d) := by
  intro x u c hx hc
  by_cases hxs : s = x
  · subst hxs
    have hx2 : mget (mset st.activeUsers s
        ⟨s, d.userId, d.userName, d.enterpriseId, ∅⟩) s = some u := hx
    rw [mget_mset_self] at hx2
    injection hx2 with hval
    rw [← hval] at hc
    exact absurd hc (Finset.not_mem_empty _)
  · have hx2 : mget (mset st.activeUsers s
        ⟨s, d.userId, d.userName, d.enterpriseId, ∅⟩) x = some u := hx
    rw [mget_mset_ne _ _ _ _ (fun hh => hxs hh.symm)] at hx2
    exact h x u c hx2 hc

theorem channelsBound_step (st : ServerState) (a : Action) (h : channelsBound st)
    (hnd : keysNodup st) : channelsBound (step st a).state := by
  cases a with
  | auth s d ar cr =>
      show channelsBound (authenticate st s d ar cr).state
      cases ar with
      | none => rw [authenticate_eq_badtoken]; exact h
      | some uid =>
          by_cases huid : uid = d.userId
          · subst huid
            cases cr with
            | none =>
                rw [authenticate_eq_chanfail]
                exact channelsBound_regState st s d h
            | some rows =>
                rw [authenticate_eq_ok]
                intro x u c hx hc
                have hjoin := channelsBound_joinAll rows (regState st s d) s
                  (channelsBound_regState st s d h) x u c hx hc
                show (Room.channel c, x) ∈
                  insert (Room.enterprise d.enterpriseId, s)
                    (joinAll (regState st s d) s rows).rooms
                exact Finset.mem_insert_of_mem hjoin
          · rw [authenticate_eq_mismatch st s d uid cr huid]; exact h
  | join s c mo =>
      show channelsBound (joinChannel st s c mo).state
      cases hu : mget st.activeUsers s with
      | none => rw [joinChannel_eq_unauth st s c mo hu]; exact h
      | some u =>
          cases mo with
          | false => rw [joinChannel_eq_denied st s c u hu]; exact h
          | true =>
              rw [joinChannel_eq_ok st s c u hu]
              intro x w c2 hx hc2
              show (Room.channel c2, x) ∈ insert (Room.channel c, s) st.rooms
              by_cases hxs : s = x
              · subst hxs
                have hx2 : mget (mset st.activeUsers s
                    { u with channels := insert c u.channels }) s = some w := hx
                rw [mget_mset_self] at hx2
                injection hx2 with hval
                rw [← hval] at hc2
                rcases Finset.mem_insert.mp hc2 with hceq | hcin
                · subst hceq; exact Finset.mem_insert_self _ _
                · exact Finset.mem_insert_of_mem (h s u c2 hu hcin)
              · have hx2 : mget (mset st.activeUsers s
                    { u with channels := insert c u.channels }) x = some w := hx
                rw [mget_mset_ne _ _ _ _ (fun hh => hxs hh.symm)] at hx2
                exact Finset.mem_insert_of_mem (h x w c2 hx2 hc2)
  | send s d ir now =>
      show channelsBound (sendMessage st s d ir now).state
      unfold sendMessage
      repeat' split
      all_goals exact h
  | tStart s c =>
      show channelsBound (typingStart st s c).state
      unfold typingStart
      repeat' split
      all_goals exact h
  | tStop s c =>
      show channelsBound (typingStop st s c).state
      unfold typingStop
      repeat' split
      all_goals exact h
  | react s rd =>
      show channelsBound (addReaction st s rd).state
      unfold addReaction
      repeat' split
      all_goals exact h
  | pres s status =>
      show channelsBound (updatePresence st s status).state
      unfold updatePresence
      repeat' split
      all_goals exact h
  | disc s =>
      show channelsBound (disconnect st s).state
      cases hu : mget st.activeUsers s with
      | none =>
          rw [disconnect_eq_unknown st s hu]
          intro x u c hx hc
          have hxs : x ≠ s := by
            intro hh; subst hh
            rw [hu] at hx
            cases hx
          exact Finset.mem_filter.mpr ⟨h x u c hx hc, hxs⟩
      | some u =>
          rw [disconnect_eq_known st s u hu]
          intro x w c hx hc
          have hx2 : mget (mdel st.activeUsers s) x = some w := hx
          have hxs : x ≠ s := by
            intro hh; subst hh
            rw [mget_mdel_self _ _ hnd] at hx2
            cases hx2
          rw [mget_mdel_ne _ _ _ hxs] at hx2
          exact Finset.mem_filter.mpr ⟨h x w c hx2 hc, hxs⟩

/-- The invariant carried along every execution: unique registry keys and
fan-out completeness (registered channels are bound in the room table). -/
def stInv (st : ServerState) : Prop := keysNodup st ∧ channelsBound st

theorem stInv_step (st : ServerState) (a : Action) (h : stInv st) :
    stInv (step st a).state :=
  ⟨keysNodup_step st a h.1, channelsBound_step st a h.2 h.1⟩

theorem stInv_run (acts : List Action) :
    ∀ st : ServerState, stInv st → stInv (run st acts) := by
  induction acts with
  | nil => intro st h; exact h
  | cons a rest ih =>
      intro st h
      exact ih _ (stInv_step st a h)

theorem stInv_initState : stInv initState := by
  constructor
  · simp [keysNodup, initState]
  · intro x u c hx _
    cases hx

theorem channelsBound_reachable (acts : List Action) :
    channelsBound (run initState acts) :=
  (stInv_run acts initState stInv_initState).2

/-- The event names governed by the fan-out soundness property: events that
must only reach connections bound to the channel in the Connection Registry. -/
def c1EventNames : List String := ["new_message", "user_typing", "joined_channel"]

/-- Socket `x` is bound to channel `c` in the Connection Registry. -/
def boundOK (st : ServerState) (x : SocketId) (c : ChannelId) : Prop :=
  ∃ u, mget st.activeUsers x = some u ∧ c ∈ u.channels

/-- Every channel-scoped event in the output is delivered only to sockets
bound (in the registry of the post-state) to the event's channel. -/
def emitsOK (out : Output) : Prop :=
  ∀ tgt ev, (tgt, ev) ∈ out.emits → ev.name ∈ c1EventNames →
    ∀ x, x ∈ recips out.state tgt →
      ∃ c, lookupField ev.payload "channelId" = some (Val.str c) ∧ boundOK out.state x c

/-- `emitsOK` for the output of one action. -/
def deliveriesOK (st : ServerState) (a : Action) : Prop := emitsOK (step st a)

/-- `deliveriesOK` at every step of a run. -/
def allDeliveriesOK (st : ServerState) : List Action → Prop
  | [] => True
  | a :: rest => deliveriesOK st a ∧ allDeliveriesOK (step st a).state rest

theorem disconnectTyping_names (uid : UserId) (s : SocketId) :
    ∀ (entries : List (ChannelId × Finset UserId)) (te : Target × Event),
      te ∈ (disconnectTyping entries uid s).2 → te.2.name = "user_stopped_typing" := by
  intro entries
  induction entries with
  | nil => intro te h; simp [disconnectTyping] at h
  | cons e rest ih =>
      obtain ⟨c, ts⟩ := e
      intro te h
      by_cases hin : uid ∈ ts
      · simp only [disconnectTyping, if_pos hin, List.mem_cons] at h
        rcases h with rfl | h2
        · rfl
        · exact ih te h2
      · simp only [disconnectTyping, if_neg hin] at h
        exact ih te h

theorem emitsOK_authenticate (st : ServerState) (s : SocketId) (d : AuthData)
    (ar : Option UserId) (cr : Option (List ChannelRow)) :
    emitsOK (authenticate st s d ar cr) := by
  cases ar with
  | none =>
      rw [authenticate_eq_badtoken]
      intro tgt ev hmem hname x hx
      simp only [List.mem_singleton, Prod.mk.injEq] at hmem
      obtain ⟨rfl, rfl⟩ := hmem
      exact absurd hname (by decide)
  | some uid =>
      by_cases huid : uid = d.userId
      · subst huid
        cases cr with
        | none =>
            rw [authenticate_eq_chanfail]
            intro tgt ev hmem hname x hx
            simp at hmem
        | some rows =>
            rw [authenticate_eq_ok]
            intro tgt ev hmem hname x hx
            simp only [List.mem_cons, List.not_mem_nil, or_false, Prod.mk.injEq] at hmem
            rcases hmem with ⟨rfl, rfl⟩ | ⟨rfl, rfl⟩
            · have hname2 : ("authenticated" : String) ∈ c1EventNames := hname
              exact absurd hname2 (by decide)
            · have hname2 : ("user_online" : String) ∈ c1EventNames := hname
              exact absurd hname2 (by decide)
      · rw [authenticate_eq_mismatch st s d uid cr huid]
        intro tgt ev hmem hname x hx
        simp only [List.mem_singleton, Prod.mk.injEq] at hmem
        obtain ⟨rfl, rfl⟩ := hmem
        exact absurd hname (by decide)

theorem emitsOK_joinChannel (st : ServerState) (s : SocketId) (c : ChannelId)
    (mo : Bool) : emitsOK (joinChannel st s c mo) := by
  cases hu : mget st.activeUsers s with
  | none =>
      rw [joinChannel_eq_unauth st s c mo hu]
      intro tgt ev hmem hname x hx
      simp only [List.mem_singleton, Prod.mk.injEq] at hmem
      obtain ⟨rfl, rfl⟩ := hmem
      exact absurd hname (by decide)
  | some u =>
      cases mo with
      | false =>
          rw [joinChannel_eq_denied st s c u hu]
          intro tgt ev hmem hname x hx
          simp only [List.mem_singleton, Prod.mk.injEq] at hmem
          obtain ⟨rfl, rfl⟩ := hmem
          exact absurd hname (by decide)
      | true =>
          rw [joinChannel_eq_ok st s c u hu]
          intro tgt ev hmem hname x hx
          simp only [List.mem_cons, List.not_mem_nil, or_false, Prod.mk.injEq] at hmem
          rcases hmem with ⟨rfl, rfl⟩ | ⟨rfl, rfl⟩
          · have hxs : x = s := by simpa [recips] using hx
            subst hxs
            refine ⟨c, rfl, ?_⟩
            exact ⟨{ u with channels := insert c u.channels },
              mget_mset_self _ _ _, Finset.mem_insert_self _ _⟩
          · have hname2 : ("user_joined_channel" : String) ∈ c1EventNames := hname
            exact absurd hname2 (by decide)

theorem emitsOK_sendMessage (st : ServerState) (s : SocketId) (d : SendData)
    (ir : Option MsgRow) (now : String) (hrb : roomsBound st) :
    emitsOK (sendMessage st s d ir now) := by
  cases hu : mget st.activeUsers s with
  | none =>
      rw [sendMessage_eq_unauth st s d ir now hu]
      intro tgt ev hmem hname x hx
      simp only [List.mem_singleton, Prod.mk.injEq] at hmem
      obtain ⟨rfl, rfl⟩ := hmem
      exact absurd hname (by decide)
  | some u =>
      by_cases hc : d.channelId ∈ u.channels
      · cases ir with
        | none =>
            rw [sendMessage_eq_dbfail st s d now u hu hc]
            intro tgt ev hmem hname x hx
            simp only [List.mem_singleton, Prod.mk.injEq] at hmem
            obtain ⟨rfl, rfl⟩ := hmem
            exact absurd hname (by decide)
        | some msg =>
            cases hty : mget st.typingUsers d.channelId with
            | none =>
                rw [sendMessage_eq_ok_quiet_none st s d msg now u hu hc hty]
                intro tgt ev hmem hname x hx
                simp only [List.mem_singleton, Prod.mk.injEq] at hmem
                obtain ⟨rfl, rfl⟩ := hmem
                refine ⟨d.channelId, rfl, ?_⟩
                have hx2 : (Room.channel d.channelId, x) ∈ st.rooms :=
                  (mem_roomMembers _ _ _).mp (by simpa [recips] using hx)
                exact hrb d.channelId x hx2
            | some ts =>
                by_cases hin : u.userId ∈ ts
                · rw [sendMessage_eq_ok_typing st s d msg now u ts hu hc hty hin]
                  intro tgt ev hmem hname x hx
                  simp only [List.mem_cons, List.not_mem_nil, or_false,
                    Prod.mk.injEq] at hmem
                  rcases hmem with ⟨rfl, rfl⟩ | ⟨rfl, rfl⟩
                  · refine ⟨d.channelId, rfl, ?_⟩
                    have hx2 : (Room.channel d.channelId, x) ∈ st.rooms :=
                      (mem_roomMembers _ _ _).mp (by simpa [recips] using hx)
                    exact hrb d.channelId x hx2
                  · have hname2 : ("user_stopped_typing" : String) ∈ c1EventNames := hname
                    exact absurd hname2 (by decide)
                · rw [sendMessage_eq_ok_quiet_notin st s d msg now u ts hu hc hty hin]
                  intro tgt ev hmem hname x hx
                  simp only [List.mem_singleton, Prod.mk.injEq] at hmem
                  obtain ⟨rfl, rfl⟩ := hmem
                  refine ⟨d.channelId, rfl, ?_⟩
                  have hx2 : (Room.channel d.channelId, x) ∈ st.rooms :=
                    (mem_roomMembers _ _ _).mp (by simpa [recips] using hx)
                  exact hrb d.channelId x hx2
      · rw [sendMessage_eq_notmember st s d ir now u hu hc]
        intro tgt ev hmem hname x hx
        simp only [List.mem_singleton, Prod.mk.injEq] at hmem
        obtain ⟨rfl, rfl⟩ := hmem
        exact absurd hname (by decide)

theorem emitsOK_typingStart (st : ServerState) (s : SocketId) (c : ChannelId)
    (hrb : roomsBound st) : emitsOK (typingStart st s c) := by
  cases hu : mget st.activeUsers s with
  | none =>
      rw [typingStart_eq_unauth st s c hu]
      intro tgt ev hmem hname x hx
      simp at hmem
  | some u =>
      by_cases hc : c ∈ u.channels
      · rw [typingStart_eq_ok st s c u hu hc]
        intro tgt ev hmem hname x hx
        simp only [List.mem_singleton, Prod.mk.injEq] at hmem
        obtain ⟨rfl, rfl⟩ := hmem
        refine ⟨c, rfl, ?_⟩
        have hx3 : x ∈ roomMembers st (Room.channel c) := by
          have := Finset.mem_of_mem_erase (by simpa [recips] using hx)
          exact this
        have hx2 : (Room.channel c, x) ∈ st.rooms := (mem_roomMembers _ _ _).mp hx3
        exact hrb c x hx2
      · rw [typingStart_eq_notmember st s c u hu hc]
        intro tgt ev hmem hname x hx
        simp at hmem

theorem emitsOK_typingStop (st : ServerState) (s : SocketId) (c : ChannelId) :
    emitsOK (typingStop st s c) := by
  cases hu : mget st.activeUsers s with
  | none =>
      rw [typingStop_eq_unauth st s c hu]
      intro tgt ev hmem hname x hx
      simp at hmem
  | some u =>
      by_cases hc : c ∈ u.channels
      · cases hty : mget st.typingUsers c with
        | none =>
            rw [typingStop_eq_none st s c u hu hc hty]
            intro tgt ev hmem hname x hx
            simp at hmem
        | some ts =>
            by_cases hin : u.userId ∈ ts
            · rw [typingStop_eq_ok st s c u ts hu hc hty hin]
              intro tgt ev hmem hname x hx
              simp only [List.mem_singleton, Prod.mk.injEq] at hmem
              obtain ⟨rfl, rfl⟩ := hmem
              have hname2 : ("user_stopped_typing" : String) ∈ c1EventNames := hname
              exact absurd hname2 (by decide)
            · rw [typingStop_eq_notin st s c u ts hu hc hty hin]
              intro tgt ev hmem hname x hx
              simp at hmem
      · rw [typingStop_eq_notmember st s c u hu hc]
        intro tgt ev hmem hname x hx
        simp at hmem

theorem emitsOK_addReaction (st : ServerState) (s : SocketId) (rd : ReactionData) :
    emitsOK (addReaction st s rd) := by
  cases hu : mget st.activeUsers s with
  | none =>
      rw [addReaction_eq_unauth st s rd hu]
      intro tgt ev hmem hname x hx
      simp at hmem
  | some u =>
      by_cases hc : rd.channelId ∈ u.channels
      · rw [addReaction_eq_ok st s rd u hu hc]
        intro tgt ev hmem hname x hx
        simp only [List.mem_singleton, Prod.mk.injEq] at hmem
        obtain ⟨rfl, rfl⟩ := hmem
        have hname2 : ("message_reaction" : String) ∈ c1EventNames := hname
        exact absurd hname2 (by decide)
      · rw [addReaction_eq_notmember st s rd u hu hc]
        intro tgt ev hmem hname x hx
        simp at hmem

theorem emitsOK_updatePresence (st : ServerState) (s : SocketId) (status : String) :
    emitsOK (updatePresence st s status) := by
  cases hu : mget st.activeUsers s with
  | none =>
      rw [updatePresence_eq_unauth st s status hu]
      intro tgt ev hmem hname x hx
      simp at hmem
  | some u =>
      rw [updatePresence_eq_ok st s status u hu]
      intro tgt ev hmem hname x hx
      simp only [List.mem_singleton, Prod.mk.injEq] at hmem
      obtain ⟨rfl, rfl⟩ := hmem
      have hname2 : ("user_presence_update" : String) ∈ c1EventNames := hname
      exact absurd hname2 (by decide)

theorem emitsOK_disconnect (st : ServerState) (s : SocketId) :
    emitsOK (disconnect st s) := by
  cases hu : mget st.activeUsers s with
  | none =>
      rw [disconnect_eq_unknown st s hu]
      intro tgt ev hmem hname x hx
      simp at hmem
  | some u =>
      rw [disconnect_eq_known st s u hu]
      intro tgt ev hmem hname x hx
      rcases List.mem_append.mp hmem with hstop | hoff
      · have := disconnectTyping_names u.userId s st.typingUsers (tgt, ev) hstop
        rw [this] at hname
        exact absurd hname (by decide)
      · simp only [List.mem_singleton, Prod.mk.injEq] at hoff
        obtain ⟨rfl, rfl⟩ := hoff
        have hname2 : ("user_offline" : String) ∈ c1EventNames := hname
        exact absurd hname2 (by decide)

/-- Given the fan-out soundness invariant at a state, every channel-scoped
event dispatched there is delivered only to registry-bound sockets. -/
theorem deliveriesOK_of_roomsBound (st : ServerState) (a : Action)
    (hrb : roomsBound st) : deliveriesOK st a := by
  cases a with
  | auth s d ar cr => exact emitsOK_authenticate st s d ar cr
  | join s c mo => exact emitsOK_joinChannel st s c mo
  | send s d ir now => exact emitsOK_sendMessage st s d ir now hrb
  | tStart s c => exact emitsOK_typingStart st s c hrb
  | tStop s c => exact emitsOK_typingStop st s c
  | react s rd => exact emitsOK_addReaction st s rd
  | pres s status => exact emitsOK_updatePresence st s status
  | disc s => exact emitsOK_disconnect st s

/-- `authCondOK` holds at every step of the run: no connection authenticates
while still occupying a channel fan-out room (i.e. no re-authentication of a
still-bound connection). -/
def noRebindFrom (st : ServerState) : List Action → Prop
  | [] => True
  | a :: rest => authCondOK st a ∧ noRebindFrom (step st a).state rest

def decAuthCondOK (st : ServerState) (a : Action) : Decidable (authCondOK st a) :=
  match a with
  | .auth s _ _ _ =>
      inferInstanceAs
        (Decidable (st.rooms.filter (fun p => p.2 = s ∧ isChanRoom p.1 = true) = ∅))
  | .join _ _ _ => Decidable.isTrue trivial
  | .send _ _ _ _ => Decidable.isTrue trivial
  | .tStart _ _ => Decidable.isTrue trivial
  | .tStop _ _ => Decidable.isTrue trivial
  | .react _ _ => Decidable.isTrue trivial
  | .pres _ _ => Decidable.isTrue trivial
  | .disc _ => Decidable.isTrue trivial

instance (st : ServerState) (a : Action) : Decidable (authCondOK st a) :=
  decAuthCondOK st a

def decNoRebindFrom : (st : ServerState) → (acts : List Action) →
    Decidable (noRebindFrom st acts)
  | _, [] => Decidable.isTrue trivial
  | st, a :: rest =>
      have : Decidable (noRebindFrom (step st a).state rest) :=
        decNoRebindFrom (step st a).state rest
      inferInstanceAs (Decidable (authCondOK st a ∧ noRebindFrom (step st a).state rest))

instance (st : ServerState) (acts : List Action) : Decidable (noRebindFrom st acts) :=
  decNoRebindFrom st acts

theorem roomsBound_initState : roomsBound initState := by
  intro c x hmem
  exact absurd hmem (Finset.not_mem_empty _)

theorem allDeliveriesOK_of_noRebind (acts : List Action) :
    ∀ st : ServerState, roomsBound st → noRebindFrom st acts →
      allDeliveriesOK st acts := by
  induction acts with
  | nil => intro st _ _; trivial
  | cons a rest ih =>
      intro st hrb hnr
      exact ⟨deliveriesOK_of_roomsBound st a hrb,
        ih _ (roomsBound_step st a hrb hnr.1) hnr.2⟩

/-
## Claim C1
-/

/-- C1 counterexample trace, step 1: socket s1 authenticates as u1 and is
bound to channel c1. -/
def c1xA1 : Action :=
  .auth "s1" ⟨"u1", "Alice", "e1", "tok"⟩ (some "u1") (some [⟨"c1", "General", "group"⟩])

/-- C1 counterexample trace, step 2: s1 re-authenticates after its membership
was revoked (the store now returns no channels); the registry channel set is
rebuilt to ∅ but the socket never leaves the `channel:c1` room. -/
def c1xA2 : Action :=
  .auth "s1" ⟨"u1", "Alice", "e1", "tok"⟩ (some "u1") (some [])

/-- C1 counterexample trace, step 3: socket s2 authenticates as u2 with
membership in c1. -/
def c1xA3 : Action :=
  .auth "s2" ⟨"u2", "Bob", "e1", "tok2"⟩ (some "u2") (some [⟨"c1", "General", "group"⟩])

/-- C1 counterexample trace, step 4: s2 sends a message to c1 (store insert
succeeds). -/
def c1xSend : Action :=
  .send "s2" ⟨"c1", "hi", none, none⟩ (some ⟨"m1", "t0", ⟨"u2", "Bob", "b@x"⟩⟩) "t1"

/-- The first three counterexample steps. -/
def c1xPre : List Action := [c1xA1, c1xA2, c1xA3]

/-- C1, falsified as stated: in the final step of the concrete trace
`c1xPre ++ [c1xSend]`, the server emits a `new_message` broadcast for channel
c1 whose recipient set contains socket s1, while s1's Connection-Registry
entry has an empty subscribed-channel set (so s1 is not bound to c1 in the
registry). The claimed invariant "no new_message is ever delivered to a
connection not bound to that channel in the Connection Registry" therefore
fails on the code: re-authentication rebuilds the registry's channel set but
never removes the socket from stale channel fan-out rooms. -/
theorem c1_counterexample :
    (step (run initState c1xPre) c1xSend).emits =
      [(Target.toRoom (Room.channel "c1"),
        newMessageEvt ⟨"m1", "t0", ⟨"u2", "Bob", "b@x"⟩⟩
          ⟨"s2", "u2", "Bob", "e1", {"c1"}⟩ ⟨"c1", "hi", none, none⟩ "t1")] ∧
    "s1" ∈ recips (step (run initState c1xPre) c1xSend).state
      (Target.toRoom (Room.channel "c1")) ∧
    mget (step (run initState c1xPre) c1xSend).state.activeUsers "s1" =
      some ⟨"s1", "u1", "Alice", "e1", ∅⟩ := by decide

/-- C1 (amended): provided no connection authenticates while still occupying
a channel fan-out room (`noRebindFrom`, true of every run in which
connections do not re-authenticate mid-session), then at every step of every
run from the server's initial state, each emitted `new_message`, `user_typing`
or `joined_channel` event is delivered only to sockets whose
Connection-Registry subscribed-channel set contains the event's channel. -/
theorem c1_channel_events_only_to_registry_bound (acts : List Action)
    (h : noRebindFrom initState acts) : allDeliveriesOK initState acts :=
  allDeliveriesOK_of_noRebind acts initState roomsBound_initState h

/-- C1 witness: a concrete run (one authenticate binding s1 to c1, then a
send to c1) satisfying the no-rebind hypothesis, with the amended
conclusion obtained from the theorem. -/
def c1wAuth : Action :=
  .auth "s1" ⟨"u1", "Alice", "e1", "tok"⟩ (some "u1") (some [⟨"c1", "General", "group"⟩])

/-- C1 witness trace, second step: s1 sends a message to c1. -/
def c1wSend : Action :=
  .send "s1" ⟨"c1", "hello", none, none⟩ (some ⟨"m1", "t0", ⟨"u1", "Alice", "a@x"⟩⟩) "t1"

/-- C1 witness: the no-rebind hypothesis holds on the concrete trace and the
amended theorem applies to it. -/
theorem c1_witness :
    noRebindFrom initState [c1wAuth, c1wSend] ∧
    allDeliveriesOK initState [c1wAuth, c1wSend] :=
  ⟨by decide, c1_channel_events_only_to_registry_bound [c1wAuth, c1wSend] (by decide)⟩

/-
## Claim C2
-/

/-- C2: whenever `authenticate` succeeds (the verifier confirms the claimed
account identifier and the membership query returns `rows`), the emitted
`authenticated` event's channel list is exactly the ids of the rows returned
by the Membership Store, and running `authenticate` again from the resulting
state with the same store answer emits the identical event list (idempotence
under unchanged membership). -/
theorem c2_authenticated_channels_match_store (st : ServerState) (s : SocketId)
    (d : AuthData) (rows : List ChannelRow) :
    (authenticate st s d (some d.userId) (some rows)).emits =
      [(Target.toSocket s, authedEvt rows),
       (Target.toRoomExcept (Room.enterprise d.enterpriseId) s, userOnlineEvt d)] ∧
    (authedEvt rows).payload =
      [("success", Val.boolv true), ("channels", Val.strList (rows.map ChannelRow.id))] ∧
    (authenticate (authenticate st s d (some d.userId) (some rows)).state s d
        (some d.userId) (some rows)).emits =
      (authenticate st s d (some d.userId) (some rows)).emits := by
  refine ⟨?_, rfl, ?_⟩
  · rw [authenticate_eq_ok]
  · rw [authenticate_eq_ok, authenticate_eq_ok]

/-
## Claim C3
-/

/-- C3: an authenticated connection sending to a channel outside its
registered subscribed-channel set gets exactly one `error` event ("Not a
member of this channel") emitted to itself, the state is unchanged, no
insert is sent to the store, and in particular no `new_message` is emitted
to anyone. -/
theorem c3_not_a_member_rejected (st : ServerState) (s : SocketId) (d : SendData)
    (ir : Option MsgRow) (now : String) (u : UserRec)
    (hu : mget st.activeUsers s = some u) (hc : d.channelId ∉ u.channels) :
    sendMessage st s d ir now =
      ⟨st, [(Target.toSocket s, errEvt "Not a member of this channel")], []⟩ ∧
    recips st (Target.toSocket s) = {s} :=
  ⟨sendMessage_eq_notmember st s d ir now u hu hc, rfl⟩

/-- State for the C3 witness: s1 authenticated with no channel subscriptions. -/
def c3wSt : ServerState := ⟨[("s1", ⟨"s1", "u1", "Alice", "e1", ∅⟩)], ∅, []⟩

/-- C3 witness: the theorem applied at a concrete state and send. -/
theorem c3_witness :
    sendMessage c3wSt "s1" ⟨"c9", "hi", none, none⟩ none "t1" =
      ⟨c3wSt, [(Target.toSocket "s1", errEvt "Not a member of this channel")], []⟩ ∧
    recips c3wSt (Target.toSocket "s1") = {"s1"} :=
  c3_not_a_member_rejected c3wSt "s1" ⟨"c9", "hi", none, none⟩ none "t1"
    ⟨"s1", "u1", "Alice", "e1", ∅⟩ (by decide) (by decide)

/-
## Claim C4
-/

/-- C4: when the store insert fails during `send_message`, the sender alone
receives one `error` event ("Failed to save message"), the state is
unchanged, and no `new_message` is emitted to any connection (the whole
output is the single error emit; the one attempted write is the failed
insert). -/
theorem c4_persistence_failure_no_broadcast (st : ServerState) (s : SocketId)
    (d : SendData) (now : String) (u : UserRec)
    (hu : mget st.activeUsers s = some u) (hc : d.channelId ∈ u.channels) :
    sendMessage st s d none now =
      ⟨st, [(Target.toSocket s, errEvt "Failed to save message")], [writeOf u d]⟩ ∧
    recips st (Target.toSocket s) = {s} :=
  ⟨sendMessage_eq_dbfail st s d now u hu hc, rfl⟩

/-- State for the C4 witness: s1 authenticated and subscribed to c1. -/
def c4wSt : ServerState :=
  ⟨[("s1", ⟨"s1", "u1", "Alice", "e1", {"c1"}⟩)],
   {(Room.channel "c1", "s1")}, []⟩

/-- C4 witness: the theorem applied at a concrete state and failed insert. -/
theorem c4_witness :
    sendMessage c4wSt "s1" ⟨"c1", "hi", none, none⟩ none "t1" =
      ⟨c4wSt, [(Target.toSocket "s1", errEvt "Failed to save message")],
       [writeOf ⟨"s1", "u1", "Alice", "e1", {"c1"}⟩ ⟨"c1", "hi", none, none⟩]⟩ ∧
    recips c4wSt (Target.toSocket "s1") = {"s1"} :=
  c4_persistence_failure_no_broadcast c4wSt "s1" ⟨"c1", "hi", none, none⟩ "t1"
    ⟨"s1", "u1", "Alice", "e1", {"c1"}⟩ (by decide) (by decide)

/-
## Claim C5
-/

/-- The emitted event names of an output, in emission order. -/
def emitNames (out : Output) : List String := out.emits.map (fun te => te.2.name)

/-- Event named `a` precedes event named `b` in the name sequence (first
occurrences compared). -/
def precedesIn (names : List String) (a b : String) : Prop :=
  a ∈ names ∧ b ∈ names ∧ names.indexOf a < names.indexOf b

instance (names : List String) (a b : String) : Decidable (precedesIn names a b) :=
  inferInstanceAs
    (Decidable (a ∈ names ∧ b ∈ names ∧ names.indexOf a < names.indexOf b))

/-- C5 counterexample trace: s1 (u1) and s2 (u2) are both bound to c1, then
u1 starts typing in c1. -/
def c5xPre : List Action :=
  [.auth "s1" ⟨"u1", "Alice", "e1", "tok"⟩ (some "u1") (some [⟨"c1", "General", "group"⟩]),
   .auth "s2" ⟨"u2", "Bob", "e1", "tok2"⟩ (some "u2") (some [⟨"c1", "General", "group"⟩]),
   .tStart "s1" "c1"]

/-- C5 counterexample final step: s1 sends a message to c1. -/
def c5xSend : Action :=
  .send "s1" ⟨"c1", "hello", none, none⟩ (some ⟨"m1", "t0", ⟨"u1", "Alice", "a@x"⟩⟩) "t1"

/-- C5, falsified as stated: when a typing sender sends a message, the
handler's emitted sequence is `new_message` first and `user_stopped_typing`
second — `user_stopped_typing` does NOT precede `new_message` — and both
events are delivered to the other subscriber s2. (The source broadcasts the
message at line 307 and only afterwards clears typing at lines 310-316.) -/
theorem c5_counterexample :
    emitNames (step (run initState c5xPre) c5xSend) =
      ["new_message", "user_stopped_typing"] ∧
    ¬ precedesIn (emitNames (step (run initState c5xPre) c5xSend))
        "user_stopped_typing" "new_message" ∧
    "s2" ∈ recips (step (run initState c5xPre) c5xSend).state
        (Target.toRoom (Room.channel "c1")) ∧
    "s2" ∈ recips (step (run initState c5xPre) c5xSend).state
        (Target.toRoomExcept (Room.channel "c1") "s1") := by decide

/-- C5 (amended): if the sender is marked typing in the channel and the send
succeeds, the handler emits exactly the `new_message` broadcast followed by
the `user_stopped_typing` notification — in that order — and every other
connection b bound to the channel's room receives both. -/
theorem c5_new_message_then_stopped_typing (st : ServerState) (s : SocketId)
    (d : SendData) (msg : MsgRow) (now : String) (u : UserRec) (ts : Finset UserId)
    (b : SocketId)
    (hu : mget st.activeUsers s = some u) (hc : d.channelId ∈ u.channels)
    (hty : mget st.typingUsers d.channelId = some ts) (hin : u.userId ∈ ts)
    (hb : b ∈ roomMembers st (Room.channel d.channelId)) (hbs : b ≠ s) :
    sendMessage st s d (some msg) now =
      ⟨{ st with typingUsers := mset st.typingUsers d.channelId (ts.erase u.userId) },
       [(Target.toRoom (Room.channel d.channelId), newMessageEvt msg u d now),
        (Target.toRoomExcept (Room.channel d.channelId) s,
          stopTypingEvt u.userId d.channelId)],
       [writeOf u d]⟩ ∧
    precedesIn (emitNames (sendMessage st s d (some msg) now))
      "new_message" "user_stopped_typing" ∧
    b ∈ recips (sendMessage st s d (some msg) now).state
        (Target.toRoom (Room.channel d.channelId)) ∧
    b ∈ recips (sendMessage st s d (some msg) now).state
        (Target.toRoomExcept (Room.channel d.channelId) s) := by
  have heq := sendMessage_eq_ok_typing st s d msg now u ts hu hc hty hin
  refine ⟨heq, ?_, ?_, ?_⟩
  · rw [heq]
    show precedesIn ["new_message", "user_stopped_typing"]
      "new_message" "user_stopped_typing"
    decide
  · rw [heq]
    exact hb
  · rw [heq]
    exact Finset.mem_erase.mpr ⟨hbs, hb⟩

/-- State for the C5 witness: s1 (u1) and s2 (u2) bound to c1, u1 typing. -/
def c5wSt : ServerState :=
  ⟨[("s1", ⟨"s1", "u1", "Alice", "e1", {"c1"}⟩),
    ("s2", ⟨"s2", "u2", "Bob", "e1", {"c1"}⟩)],
   {(Room.channel "c1", "s1"), (Room.channel "c1", "s2")},
   [("c1", {"u1"})]⟩

/-- C5 witness: the amended theorem applied at a concrete two-subscriber
state with the sender typing. -/
theorem c5_witness :
    sendMessage c5wSt "s1" ⟨"c1", "hello", none, none⟩
        (some ⟨"m1", "t0", ⟨"u1", "Alice", "a@x"⟩⟩) "t1" =
      ⟨{ c5wSt with
          typingUsers :=
            mset c5wSt.typingUsers "c1" (({"u1"} : Finset UserId).erase "u1") },
       [(Target.toRoom (Room.channel "c1"),
         newMessageEvt ⟨"m1", "t0", ⟨"u1", "Alice", "a@x"⟩⟩
           ⟨"s1", "u1", "Alice", "e1", {"c1"}⟩ ⟨"c1", "hello", none, none⟩ "t1"),
        (Target.toRoomExcept (Room.channel "c1") "s1", stopTypingEvt "u1" "c1")],
       [writeOf ⟨"s1", "u1", "Alice", "e1", {"c1"}⟩ ⟨"c1", "hello", none, none⟩]⟩ ∧
    precedesIn (emitNames (sendMessage c5wSt "s1" ⟨"c1", "hello", none, none⟩
        (some ⟨"m1", "t0", ⟨"u1", "Alice", "a@x"⟩⟩) "t1"))
      "new_message" "user_stopped_typing" ∧
    "s2" ∈ recips (sendMessage c5wSt "s1" ⟨"c1", "hello", none, none⟩
        (some ⟨"m1", "t0", ⟨"u1", "Alice", "a@x"⟩⟩) "t1").state
        (Target.toRoom (Room.channel "c1")) ∧
    "s2" ∈ recips (sendMessage c5wSt "s1" ⟨"c1", "hello", none, none⟩
        (some ⟨"m1", "t0", ⟨"u1", "Alice", "a@x"⟩⟩) "t1").state
        (Target.toRoomExcept (Room.channel "c1") "s1") :=
  c5_new_message_then_stopped_typing c5wSt "s1" ⟨"c1", "hello", none, none⟩
    ⟨"m1", "t0", ⟨"u1", "Alice", "a@x"⟩⟩ "t1" ⟨"s1", "u1", "Alice", "e1", {"c1"}⟩
    {"u1"} "s2" (by decide) (by decide) (by decide) (by decide) (by decide) (by decide)

/-
## Claim C6
-/

/-- C6, falsified as stated: an unauthenticated socket's `typing_start` (and
`update_presence`) produce no event at all — no Unauthenticated-style error
is delivered to the connection, contradicting the claim that every
non-authentication event from an unauthenticated connection yields an error
event. -/
theorem c6_counterexample :
    mget initState.activeUsers "s1" = none ∧
    (typingStart initState "s1" "c1").emits = [] ∧
    (typingStop initState "s1" "c1").emits = [] ∧
    (updatePresence initState "s1" "away").emits = [] := by decide

/-- C6 (amended): for an unauthenticated connection, `join_channel` and
`send_message` emit exactly one "Not authenticated" error event to the
originating socket, while `typing_start`, `typing_stop`, `update_presence`
(and `add_reaction`) are silently dropped — no event to anyone; in every
case the state is unchanged and nothing is emitted toward any other
connection. -/
theorem c6_unauthenticated_events (st : ServerState) (s : SocketId)
    (hu : mget st.activeUsers s = none) (c : ChannelId) (mo : Bool) (d : SendData)
    (ir : Option MsgRow) (now : String) (rd : ReactionData) (status : String) :
    joinChannel st s c mo = ⟨st, [(Target.toSocket s, errEvt "Not authenticated")], []⟩ ∧
    sendMessage st s d ir now =
      ⟨st, [(Target.toSocket s, errEvt "Not authenticated")], []⟩ ∧
    typingStart st s c = ⟨st, [], []⟩ ∧
    typingStop st s c = ⟨st, [], []⟩ ∧
    updatePresence st s status = ⟨st, [], []⟩ ∧
    addReaction st s rd = ⟨st, [], []⟩ :=
  ⟨joinChannel_eq_unauth st s c mo hu, sendMessage_eq_unauth st s d ir now hu,
   typingStart_eq_unauth st s c hu, typingStop_eq_unauth st s c hu,
   updatePresence_eq_unauth st s status hu, addReaction_eq_unauth st s rd hu⟩

/-- C6 witness: the amended theorem applied at the initial state. -/
theorem c6_witness :
    joinChannel initState "s1" "c1" true =
      ⟨initState, [(Target.toSocket "s1", errEvt "Not authenticated")], []⟩ ∧
    sendMessage initState "s1" ⟨"c1", "hi", none, none⟩ none "t1" =
      ⟨initState, [(Target.toSocket "s1", errEvt "Not authenticated")], []⟩ ∧
    typingStart initState "s1" "c1" = ⟨initState, [], []⟩ ∧
    typingStop initState "s1" "c1" = ⟨initState, [], []⟩ ∧
    updatePresence initState "s1" "away" = ⟨initState, [], []⟩ ∧
    addReaction initState "s1" ⟨"m1", "x", "c1"⟩ = ⟨initState, [], []⟩ :=
  c6_unauthenticated_events initState "s1" (by decide) "c1" true
    ⟨"c1", "hi", none, none⟩ none "t1" ⟨"m1", "x", "c1"⟩ "away"

/-
## Claim C7
-/

/-- C7 counterexample setup: s1 authenticates with membership in c1. -/
def c7xAuth : Action :=
  .auth "s1" ⟨"u1", "Alice", "e1", "tok"⟩ (some "u1") (some [⟨"c1", "General", "group"⟩])

/-- The store's answer to the C7 counterexample insert: generated id m1 and
store-side creation timestamp 2025-01-01T00:00:00Z. -/
def c7xMsg : MsgRow := ⟨"m1", "2025-01-01T00:00:00Z", ⟨"u1", "Alice", "a@x"⟩⟩

/-- C7, falsified as stated: on a successful send, the broadcast
`new_message` event's timestamp field is the server's wall-clock value at
broadcast time (`new Date().toISOString()`), not the creation timestamp
generated by the Membership Store for the inserted row — here the store
generated 2025-01-01T00:00:00Z but the event carries 2025-02-02T09:30:00Z. -/
theorem c7_counterexample :
    (sendMessage (run initState [c7xAuth]) "s1" ⟨"c1", "hello", none, none⟩
        (some c7xMsg) "2025-02-02T09:30:00Z").emits =
      [(Target.toRoom (Room.channel "c1"),
        newMessageEvt c7xMsg ⟨"s1", "u1", "Alice", "e1", {"c1"}⟩
          ⟨"c1", "hello", none, none⟩ "2025-02-02T09:30:00Z")] ∧
    lookupField (newMessageEvt c7xMsg ⟨"s1", "u1", "Alice", "e1", {"c1"}⟩
        ⟨"c1", "hello", none, none⟩ "2025-02-02T09:30:00Z").payload "timestamp" =
      some (Val.str "2025-02-02T09:30:00Z") ∧
    c7xMsg.created_at = "2025-01-01T00:00:00Z" ∧
    lookupField (newMessageEvt c7xMsg ⟨"s1", "u1", "Alice", "e1", {"c1"}⟩
        ⟨"c1", "hello", none, none⟩ "2025-02-02T09:30:00Z").payload "timestamp" ≠
      some (Val.str c7xMsg.created_at) := by decide

/-- C7 (amended): for every reachable state, a send whose persistence
succeeds emits exactly one `new_message`, targeted at the channel's full
fan-out room; its recipient set is exactly the room's members and includes
the sender; the event's id field is the store-generated identifier, and its
timestamp field is the server's broadcast-time clock value (not the store's
creation timestamp). -/
theorem c7_single_broadcast_to_whole_room (acts : List Action) (s : SocketId)
    (d : SendData) (msg : MsgRow) (now : String) (u : UserRec)
    (hu : mget (run initState acts).activeUsers s = some u)
    (hc : d.channelId ∈ u.channels) :
    (sendMessage (run initState acts) s d (some msg) now).emits.filter
        (fun te => te.2.name == "new_message") =
      [(Target.toRoom (Room.channel d.channelId), newMessageEvt msg u d now)] ∧
    recips (sendMessage (run initState acts) s d (some msg) now).state
        (Target.toRoom (Room.channel d.channelId)) =
      roomMembers (run initState acts) (Room.channel d.channelId) ∧
    s ∈ roomMembers (run initState acts) (Room.channel d.channelId) ∧
    lookupField (newMessageEvt msg u d now).payload "id" = some (Val.str msg.id) ∧
    lookupField (newMessageEvt msg u d now).payload "timestamp" =
      some (Val.str now) := by
  have hmem : s ∈ roomMembers (run initState acts) (Room.channel d.channelId) :=
    (mem_roomMembers _ _ _).mpr (channelsBound_reachable acts s u d.channelId hu hc)
  refine ⟨?_, ?_, hmem, rfl, rfl⟩
  · cases hty : mget (run initState acts).typingUsers d.channelId with
    | none =>
        rw [sendMessage_eq_ok_quiet_none _ _ _ _ _ _ hu hc hty]
        rfl
    | some ts =>
        by_cases hin : u.userId ∈ ts
        · rw [sendMessage_eq_ok_typing _ _ _ _ _ _ _ hu hc hty hin]
          rfl
        · rw [sendMessage_eq_ok_quiet_notin _ _ _ _ _ _ _ hu hc hty hin]
          rfl
  · cases hty : mget (run initState acts).typingUsers d.channelId with
    | none =>
        rw [sendMessage_eq_ok_quiet_none _ _ _ _ _ _ hu hc hty]
        rfl
    | some ts =>
        by_cases hin : u.userId ∈ ts
        · rw [sendMessage_eq_ok_typing _ _ _ _ _ _ _ hu hc hty hin]
          rfl
        · rw [sendMessage_eq_ok_quiet_notin _ _ _ _ _ _ _ hu hc hty hin]
          rfl

/-- C7 witness: the amended theorem applied to the one-authentication run. -/
theorem c7_witness :
    (sendMessage (run initState [c7xAuth]) "s1" ⟨"c1", "hello", none, none⟩
        (some c7xMsg) "2025-02-02T09:30:00Z").emits.filter
        (fun te => te.2.name == "new_message") =
      [(Target.toRoom (Room.channel "c1"),
        newMessageEvt c7xMsg ⟨"s1", "u1", "Alice", "e1", {"c1"}⟩
          ⟨"c1", "hello", none, none⟩ "2025-02-02T09:30:00Z")] ∧
    recips (sendMessage (run initState [c7xAuth]) "s1" ⟨"c1", "hello", none, none⟩
        (some c7xMsg) "2025-02-02T09:30:00Z").state
        (Target.toRoom (Room.channel "c1")) =
      roomMembers (run initState [c7xAuth]) (Room.channel "c1") ∧
    "s1" ∈ roomMembers (run initState [c7xAuth]) (Room.channel "c1") ∧
    lookupField (newMessageEvt c7xMsg ⟨"s1", "u1", "Alice", "e1", {"c1"}⟩
        ⟨"c1", "hello", none, none⟩ "2025-02-02T09:30:00Z").payload "id" =
      some (Val.str c7xMsg.id) ∧
    lookupField (newMessageEvt c7xMsg ⟨"s1", "u1", "Alice", "e1", {"c1"}⟩
        ⟨"c1", "hello", none, none⟩ "2025-02-02T09:30:00Z").payload "timestamp" =
      some (Val.str "2025-02-02T09:30:00Z") :=
  c7_single_broadcast_to_whole_room [c7xAuth] "s1" ⟨"c1", "hello", none, none⟩
    c7xMsg "2025-02-02T09:30:00Z" ⟨"s1", "u1", "Alice", "e1", {"c1"}⟩
    (by decide) (by decide)

/-
## Claim C8
-/

/-- Every emission produced by the disconnect typing-cleanup loop is a
`user_stopped_typing` for some channel, to that channel's room minus the
disconnecting socket, carrying the disconnected account's id. -/
theorem disconnectTyping_shape (uid : UserId) (s : SocketId) :
    ∀ (entries : List (ChannelId × Finset UserId)) (te : Target × Event),
      te ∈ (disconnectTyping entries uid s).2 →
      ∃ c, te = (Target.toRoomExcept (Room.channel c) s, stopTypingEvt uid c) := by
  intro entries
  induction entries with
  | nil => intro te h; simp [disconnectTyping] at h
  | cons e rest ih =>
      obtain ⟨c, ts⟩ := e
      intro te h
      by_cases hin : uid ∈ ts
      · simp only [disconnectTyping, if_pos hin, List.mem_cons] at h
        rcases h with rfl | h2
        · exact ⟨c, rfl⟩
        · exact ih te h2
      · simp only [disconnectTyping, if_neg hin] at h
        exact ih te h

/-- C8 (amended): every `user_stopped_typing` event the server emits — from
`send_message`'s typing-clear, from `typing_stop`, and from the disconnect
cleanup — carries exactly the account identifier (`userId`) and the channel
identifier (`channelId`), and no display-name field (the display-name key
used by `user_typing`, `userName`, is absent). -/
theorem c8_stopped_typing_payload_fields (st : ServerState) (s : SocketId) :
    (∀ (d : SendData) (ir : Option MsgRow) (now : String) (tgt : Target) (ev : Event),
        (tgt, ev) ∈ (sendMessage st s d ir now).emits →
        ev.name = "user_stopped_typing" →
        ev.payload.map Prod.fst = ["userId", "channelId"] ∧
        lookupField ev.payload "userName" = none) ∧
    (∀ (c : ChannelId) (tgt : Target) (ev : Event),
        (tgt, ev) ∈ (typingStop st s c).emits →
        ev.name = "user_stopped_typing" →
        ev.payload.map Prod.fst = ["userId", "channelId"] ∧
        lookupField ev.payload "userName" = none) ∧
    (∀ (tgt : Target) (ev : Event),
        (tgt, ev) ∈ (disconnect st s).emits →
        ev.name = "user_stopped_typing" →
        ev.payload.map Prod.fst = ["userId", "channelId"] ∧
        lookupField ev.payload "userName" = none) := by
  refine ⟨?_, ?_, ?_⟩
  · intro d ir now tgt ev hmem hname
    cases hu : mget st.activeUsers s with
    | none =>
        rw [sendMessage_eq_unauth st s d ir now hu] at hmem
        simp only [List.mem_singleton, Prod.mk.injEq] at hmem
        obtain ⟨rfl, rfl⟩ := hmem
        exact absurd hname (by decide)
    | some u =>
        by_cases hc : d.channelId ∈ u.channels
        · cases ir with
          | none =>
              rw [sendMessage_eq_dbfail st s d now u hu hc] at hmem
              simp only [List.mem_singleton, Prod.mk.injEq] at hmem
              obtain ⟨rfl, rfl⟩ := hmem
              exact absurd hname (by decide)
          | some msg =>
              cases hty : mget st.typingUsers d.channelId with
              | none =>
                  rw [sendMessage_eq_ok_quiet_none st s d msg now u hu hc hty] at hmem
                  simp only [List.mem_singleton, Prod.mk.injEq] at hmem
                  obtain ⟨rfl, rfl⟩ := hmem
                  have hname2 : ("new_message" : String) = "user_stopped_typing" := hname
                  exact absurd hname2 (by decide)
              | some ts =>
                  by_cases hin : u.userId ∈ ts
                  · rw [sendMessage_eq_ok_typing st s d msg now u ts hu hc hty hin] at hmem
                    simp only [List.mem_cons, List.not_mem_nil, or_false,
                      Prod.mk.injEq] at hmem
                    rcases hmem with ⟨rfl, rfl⟩ | ⟨rfl, rfl⟩
                    · have hname2 : ("new_message" : String) = "user_stopped_typing" :=
                        hname
                      exact absurd hname2 (by decide)
                    · exact ⟨rfl, rfl⟩
                  · rw [sendMessage_eq_ok_quiet_notin st s d msg now u ts hu hc hty hin]
                      at hmem
                    simp only [List.mem_singleton, Prod.mk.injEq] at hmem
                    obtain ⟨rfl, rfl⟩ := hmem
                    have hname2 : ("new_message" : String) = "user_stopped_typing" := hname
                    exact absurd hname2 (by decide)
        · rw [sendMessage_eq_notmember st s d ir now u hu hc] at hmem
          simp only [List.mem_singleton, Prod.mk.injEq] at hmem
          obtain ⟨rfl, rfl⟩ := hmem
          exact absurd hname (by decide)
  · intro c tgt ev hmem hname
    cases hu : mget st.activeUsers s with
    | none =>
        rw [typingStop_eq_unauth st s c hu] at hmem
        simp at hmem
    | some u =>
        by_cases hc : c ∈ u.channels
        · cases hty : mget st.typingUsers c with
          | none =>
              rw [typingStop_eq_none st s c u hu hc hty] at hmem
              simp at hmem
          | some ts =>
              by_cases hin : u.userId ∈ ts
              · rw [typingStop_eq_ok st s c u ts hu hc hty hin] at hmem
                simp only [List.mem_singleton, Prod.mk.injEq] at hmem
                obtain ⟨rfl, rfl⟩ := hmem
                exact ⟨rfl, rfl⟩
              · rw [typingStop_eq_notin st s c u ts hu hc hty hin] at hmem
                simp at hmem
        · rw [typingStop_eq_notmember st s c u hu hc] at hmem
          simp at hmem
  · intro tgt ev hmem hname
    cases hu : mget st.activeUsers s with
    | none =>
        rw [disconnect_eq_unknown st s hu] at hmem
        simp at hmem
    | some u =>
        rw [disconnect_eq_known st s u hu] at hmem
        rcases List.mem_append.mp hmem with hstop | hoff
        · obtain ⟨c, hte⟩ := disconnectTyping_shape u.userId s st.typingUsers (tgt, ev) hstop
          injection hte with h1 h2
          subst h2
          exact ⟨rfl, rfl⟩
        · simp only [List.mem_singleton, Prod.mk.injEq] at hoff
          obtain ⟨rfl, rfl⟩ := hoff
          have hname2 : ("user_offline" : String) = "user_stopped_typing" := hname
          exact absurd hname2 (by decide)

/-- C8 counterexample setup: s1 authenticates into c1 and starts typing. -/
def c8xPre : List Action :=
  [.auth "s1" ⟨"u1", "Alice", "e1", "tok"⟩ (some "u1") (some [⟨"c1", "General", "group"⟩]),
   .tStart "s1" "c1"]

/-- C8, falsified as stated: the `user_stopped_typing` event emitted on an
explicit `typing_stop` carries only `userId` and `channelId`; it has no
display-name field (`userName` — the key `user_typing` uses for the display
name — is absent, as is any `displayName` key), contradicting the declared
payload accountId, displayName, channelId. -/
theorem c8_counterexample :
    (step (run initState c8xPre) (.tStop "s1" "c1")).emits =
      [(Target.toRoomExcept (Room.channel "c1") "s1", stopTypingEvt "u1" "c1")] ∧
    (stopTypingEvt "u1" "c1").payload =
      [("userId", Val.str "u1"), ("channelId", Val.str "c1")] ∧
    lookupField (stopTypingEvt "u1" "c1").payload "userName" = none ∧
    lookupField (stopTypingEvt "u1" "c1").payload "displayName" = none := by decide

/-- State for the C8 witness: s1 in c1 with u1 typing. -/
def c8wSt : ServerState :=
  ⟨[("s1", ⟨"s1", "u1", "Alice", "e1", {"c1"}⟩)],
   {(Room.channel "c1", "s1")}, [("c1", {"u1"})]⟩

/-- C8 witness: the amended theorem applied to the concrete `typing_stop`
emission. -/
theorem c8_witness :
    (stopTypingEvt "u1" "c1").payload.map Prod.fst = ["userId", "channelId"] ∧
    lookupField (stopTypingEvt "u1" "c1").payload "userName" = none :=
  (c8_stopped_typing_payload_fields c8wSt "s1").2.1 "c1"
    (Target.toRoomExcept (Room.channel "c1") "s1") (stopTypingEvt "u1" "c1")
    (by decide) rfl

/-
## Claim C9
-/

/-- C9: when the bearer credential verifies (and matches the claimed account)
but the channel-membership query fails, the connection is nevertheless left
registered in `activeUsers` with an empty subscribed-channel set, no room
binding is added (a fresh connection stays bound to no channel or enterprise
room), and the server emits nothing — neither `authenticated` nor
`auth_error`. -/
theorem c9_membership_query_failure_silent (st : ServerState) (s : SocketId)
    (d : AuthData) (hfresh : ∀ r : Room, (r, s) ∉ st.rooms) :
    (authenticate st s d (some d.userId) none).emits = [] ∧
    (authenticate st s d (some d.userId) none).state.rooms = st.rooms ∧
    mget (authenticate st s d (some d.userId) none).state.activeUsers s =
      some ⟨s, d.userId, d.userName, d.enterpriseId, ∅⟩ ∧
    (∀ r : Room, (r, s) ∉ (authenticate st s d (some d.userId) none).state.rooms) := by
  rw [authenticate_eq_chanfail]
  refine ⟨rfl, rfl, ?_, hfresh⟩
  show mget (mset st.activeUsers s ⟨s, d.userId, d.userName, d.enterpriseId, ∅⟩) s = _
  rw [mget_mset_self]

/-- C9 witness: the theorem applied to a fresh connection at the initial
state. -/
theorem c9_witness :
    (authenticate initState "s1" ⟨"u1", "Alice", "e1", "tok"⟩ (some "u1") none).emits =
      [] ∧
    (authenticate initState "s1" ⟨"u1", "Alice", "e1", "tok"⟩
        (some "u1") none).state.rooms = initState.rooms ∧
    mget (authenticate initState "s1" ⟨"u1", "Alice", "e1", "tok"⟩
        (some "u1") none).state.activeUsers "s1" =
      some ⟨"s1", "u1", "Alice", "e1", ∅⟩ ∧
    (∀ r : Room, (r, "s1") ∉ (authenticate initState "s1" ⟨"u1", "Alice", "e1", "tok"⟩
        (some "u1") none).state.rooms) :=
  c9_membership_query_failure_silent initState "s1" ⟨"u1", "Alice", "e1", "tok"⟩
    (fun r hmem => absurd hmem (Finset.not_mem_empty _))

/-
## Claim C10
-/

/-- The disconnect cleanup deletes the account from a typing set it occurs
in, keyed purely by account identifier. -/
theorem disconnectTyping_mget_erase (uid : UserId) (s : SocketId) :
    ∀ (entries : List (ChannelId × Finset UserId)) (c : ChannelId) (ts : Finset UserId),
      mget entries c = some ts → uid ∈ ts →
      mget (disconnectTyping entries uid s).1 c = some (ts.erase uid) := by
  intro entries
  induction entries with
  | nil => intro c ts h _; simp [mget] at h
  | cons e rest ih =>
      obtain ⟨c2, ts2⟩ := e
      intro c ts h hin
      by_cases hin2 : uid ∈ ts2
      · simp only [disconnectTyping, if_pos hin2]
        by_cases hc : c2 = c
        · subst hc
          have h2 : ts2 = ts := by simpa [mget] using h
          subst h2
          simp [mget]
        · have h2 : mget rest c = some ts := by simpa [mget, hc] using h
          simp only [mget, if_neg hc]
          exact ih c ts h2 hin
      · simp only [disconnectTyping, if_neg hin2]
        by_cases hc : c2 = c
        · subst hc
          have h2 : ts2 = ts := by simpa [mget] using h
          subst h2
          exact absurd hin hin2
        · have h2 : mget rest c = some ts := by simpa [mget, hc] using h
          simp only [mget, if_neg hc]
          exact ih c ts h2 hin

/-- The disconnect cleanup emits `user_stopped_typing` for each channel whose
typing set contains the disconnected account. -/
theorem disconnectTyping_emits_stop (uid : UserId) (s : SocketId) :
    ∀ (entries : List (ChannelId × Finset UserId)) (c : ChannelId) (ts : Finset UserId),
      mget entries c = some ts → uid ∈ ts →
      (Target.toRoomExcept (Room.channel c) s, stopTypingEvt uid c) ∈
        (disconnectTyping entries uid s).2 := by
  intro entries
  induction entries with
  | nil => intro c ts h _; simp [mget] at h
  | cons e rest ih =>
      obtain ⟨c2, ts2⟩ := e
      intro c ts h hin
      by_cases hc : c2 = c
      · subst hc
        have h2 : ts2 = ts := by simpa [mget] using h
        subst h2
        simp only [disconnectTyping, if_pos hin]
        exact List.mem_cons_self _ _
      · have h2 : mget rest c = some ts := by simpa [mget, hc] using h
        by_cases hin2 : uid ∈ ts2
        · simp only [disconnectTyping, if_pos hin2]
          exact List.mem_cons_of_mem _ (ih c ts h2 hin)
        · simp only [disconnectTyping, if_neg hin2]
          exact ih c ts h2 hin

/-- C10: per-channel typing state is keyed by account identifier, not by
connection. If an account u has two live connections s1 and s2 both bound
to channel c and the account is marked typing there, disconnecting s2
deletes the account from c's typing set and broadcasts `user_stopped_typing`
for the account to c's room (which still contains s1), even though s1 — the
connection that could have started the typing — remains registered; the
account's typing entry is gone for s1 as well. -/
theorem c10_typing_keyed_by_account (st : ServerState) (s1 s2 : SocketId)
    (u1 u2 : UserRec) (c : ChannelId) (ts : Finset UserId)
    (hs : s1 ≠ s2)
    (h1 : mget st.activeUsers s1 = some u1)
    (h2 : mget st.activeUsers s2 = some u2)
    (huid : u1.userId = u2.userId)
    (hty : mget st.typingUsers c = some ts)
    (hin : u2.userId ∈ ts)
    (hroom : (Room.channel c, s1) ∈ st.rooms) :
    mget (disconnect st s2).state.typingUsers c = some (ts.erase u2.userId) ∧
    (Target.toRoomExcept (Room.channel c) s2, stopTypingEvt u2.userId c) ∈
      (disconnect st s2).emits ∧
    s1 ∈ recips (disconnect st s2).state (Target.toRoomExcept (Room.channel c) s2) ∧
    mget (disconnect st s2).state.activeUsers s1 = some u1 ∧
    u1.userId ∉ ((mget (disconnect st s2).state.typingUsers c).getD ∅) := by
  rw [disconnect_eq_known st s2 u2 h2]
  have hmg := disconnectTyping_mget_erase u2.userId s2 st.typingUsers c ts hty hin
  refine ⟨hmg, ?_, ?_, ?_, ?_⟩
  · exact List.mem_append_left _
      (disconnectTyping_emits_stop u2.userId s2 st.typingUsers c ts hty hin)
  · refine Finset.mem_erase.mpr ⟨hs, ?_⟩
    refine (mem_roomMembers _ _ _).mpr ?_
    show (Room.channel c, s1) ∈ st.rooms.filter (fun p => p.2 ≠ s2)
    exact Finset.mem_filter.mpr ⟨hroom, hs⟩
  · show mget (mdel st.activeUsers s2) s1 = some u1
    rw [mget_mdel_ne _ _ _ hs]
    exact h1
  · show u1.userId ∉ ((mget (disconnectTyping st.typingUsers u2.userId s2).1 c).getD ∅)
    rw [hmg, huid]
    simp

/-- State for the C10 witness: one account u1 with two live sockets s1 and
s2, both bound to c1, with u1 typing in c1. -/
def c10wSt : ServerState :=
  ⟨[("s1", ⟨"s1", "u1", "Alice", "e1", {"c1"}⟩),
    ("s2", ⟨"s2", "u1", "Alice", "e1", {"c1"}⟩)],
   {(Room.channel "c1", "s1"), (Room.channel "c1", "s2")},
   [("c1", {"u1"})]⟩

/-- C10 witness: the theorem applied to the concrete two-connection state. -/
theorem c10_witness :
    mget (disconnect c10wSt "s2").state.typingUsers "c1" =
      some (({"u1"} : Finset UserId).erase "u1") ∧
    (Target.toRoomExcept (Room.channel "c1") "s2", stopTypingEvt "u1" "c1") ∈
      (disconnect c10wSt "s2").emits ∧
    "s1" ∈ recips (disconnect c10wSt "s2").state
      (Target.toRoomExcept (Room.channel "c1") "s2") ∧
    mget (disconnect c10wSt "s2").state.activeUsers "s1" =
      some ⟨"s1", "u1", "Alice", "e1", {"c1"}⟩ ∧
    ("u1" : UserId) ∉ ((mget (disconnect c10wSt "s2").state.typingUsers "c1").getD ∅) :=
  c10_typing_keyed_by_account c10wSt "s1" "s2" ⟨"s1", "u1", "Alice", "e1", {"c1"}⟩
    ⟨"s2", "u1", "Alice", "e1", {"c1"}⟩ "c1" {"u1"} (by decide) (by decide) (by decide)
    rfl (by decide) (by decide) (by decide)

end Flyte
